import Mathlib

/-!
# Verification of the go-mdocx container codec

Shallow embedding of the MDOCX v1 container codec (package `mdocx`):
the wire framer (`wire.go`), the compression envelope (`compress.go`),
the document validator (`validate.go`), the limits policy, and the
Encode/Decode orchestrators (`encode.go`, `decode.go`).

Modelling conventions:
* Bytes are `Nat` values (< 256 on every byte stream the code produces);
  byte streams are `List Nat`.  Multi-byte integers use explicit
  little-endian conversion functions mirroring `encoding/binary`.
* Go strings are Lean `String`s.
* The external dependencies that the Go code reaches through injectable
  function variables (the four compression libraries, `encoding/gob`,
  `encoding/json`, `crypto/sha256`) are function *parameters* of the
  embedding (`CodecImpl`, `EncodeDeps`, `DecodeDeps`), exactly as
  `compress.go` and `encode.go` inject them for tests.  Everything that
  is the repository's own logic is translated from the source.
* Fallible Go functions returning `(T, error)` become `Except MdocxError T`.
-/

deriving instance DecidableEq for Except

namespace Mdocx

/-- Error kinds, from `errors.go`.  The sentinel errors of the package are
the first seven constructors; `ioErr`, `jsonErr`, `gobErr` and `codecErr`
model errors of the standard library / compression libraries that the
code returns verbatim (they are distinct from every sentinel kind). -/
inductive MdocxError where
  | invalidMagic
  | unsupportedVersion
  | invalidHeader
  | invalidSection
  | invalidPayload
  | limitExceeded
  | validation
  | ioErr
  | jsonErr
  | gobErr
  | codecErr
deriving DecidableEq, Repr

/-- `toLE k n`: the `k`-byte little-endian encoding of `n` (mirrors
`binary.LittleEndian.PutUintXX`; Go truncates to the register width,
here the value is reduced modulo `256^k` byte by byte). -/
def toLE : Nat → Nat → List Nat
  | 0, _ => []
  | k + 1, n => n % 256 :: toLE k (n / 256)

/-- `fromLE bs`: read a little-endian integer from the byte list
(mirrors `binary.LittleEndian.UintXX`). -/
def fromLE : List Nat → Nat
  | [] => 0
  | b :: bs => b + 256 * fromLE bs

theorem toLE_length (k n : Nat) : (toLE k n).length = k := by
  induction k generalizing n with
  | zero => rfl
  | succ k ih => simp [toLE, ih]

theorem fromLE_toLE (k n : Nat) (h : n < 256 ^ k) : fromLE (toLE k n) = n := by
  induction k generalizing n with
  | zero => simp at h; simp [h, toLE, fromLE]
  | succ k ih =>
      have hdiv : n / 256 < 256 ^ k := by
        rw [Nat.div_lt_iff_lt_mul (by norm_num)]
        calc n < 256 ^ (k + 1) := h
        _ = 256 ^ k * 256 := by ring
      simp [toLE, fromLE, ih _ hdiv]
      omega

/-- Constants from `types.go`. -/
def VersionV1 : Nat := 1

def fixedHeaderSizeV1 : Nat := 32

/-- The 8-byte MDOCX file signature ("MDOCX\r\n" + SUB). -/
def Magic : List Nat := [0x4D, 0x44, 0x4F, 0x43, 0x58, 0x0D, 0x0A, 0x1A]

def HeaderFlagMetadataJSON : Nat := 0x0001

def SectionMarkdown : Nat := 1
def SectionMedia : Nat := 2

/-- Compression ids (`type Compression uint16`).  Modelled as `Nat` so
that the unknown-id default branches of the source are expressible. -/
def CompNone : Nat := 0x0
def CompZIP : Nat := 0x1
def CompZSTD : Nat := 0x2
def CompLZ4 : Nat := 0x3
def CompBR : Nat := 0x4

def sectionFlagCompressionMask : Nat := 0x000F
def sectionFlagHasUncompressedLen : Nat := 0x0010

/-- `Limits` from the limits file, field for field. -/
structure Limits where
  MaxMetadataLen : Nat
  MaxMarkdownSectionLen : Nat
  MaxMediaSectionLen : Nat
  MaxMarkdownUncompressed : Nat
  MaxMediaUncompressed : Nat
  MaxMarkdownFiles : Nat
  MaxMediaItems : Nat
  MaxSingleMarkdownFileSize : Nat
  MaxSingleMediaSize : Nat
deriving DecidableEq, Repr

/-- `defaultLimits()`. -/
def defaultLimits : Limits where
  MaxMetadataLen := 1 <<< 20
  MaxMarkdownSectionLen := 1 <<< 30
  MaxMediaSectionLen := 1 <<< 32
  MaxMarkdownUncompressed := 256 <<< 20
  MaxMediaUncompressed := 2 <<< 30
  MaxMarkdownFiles := 10000
  MaxMediaItems := 10000
  MaxSingleMarkdownFileSize := 256 <<< 20
  MaxSingleMediaSize := 512 <<< 20

/-- `(l Limits) withDefaults()`: replace every zero field by its default. -/
def Limits.withDefaults (l : Limits) : Limits where
  MaxMetadataLen := if l.MaxMetadataLen = 0 then defaultLimits.MaxMetadataLen else l.MaxMetadataLen
  MaxMarkdownSectionLen := if l.MaxMarkdownSectionLen = 0 then defaultLimits.MaxMarkdownSectionLen else l.MaxMarkdownSectionLen
  MaxMediaSectionLen := if l.MaxMediaSectionLen = 0 then defaultLimits.MaxMediaSectionLen else l.MaxMediaSectionLen
  MaxMarkdownUncompressed := if l.MaxMarkdownUncompressed = 0 then defaultLimits.MaxMarkdownUncompressed else l.MaxMarkdownUncompressed
  MaxMediaUncompressed := if l.MaxMediaUncompressed = 0 then defaultLimits.MaxMediaUncompressed else l.MaxMediaUncompressed
  MaxMarkdownFiles := if l.MaxMarkdownFiles = 0 then defaultLimits.MaxMarkdownFiles else l.MaxMarkdownFiles
  MaxMediaItems := if l.MaxMediaItems = 0 then defaultLimits.MaxMediaItems else l.MaxMediaItems
  MaxSingleMarkdownFileSize := if l.MaxSingleMarkdownFileSize = 0 then defaultLimits.MaxSingleMarkdownFileSize else l.MaxSingleMarkdownFileSize
  MaxSingleMediaSize := if l.MaxSingleMediaSize = 0 then defaultLimits.MaxSingleMediaSize else l.MaxSingleMediaSize

theorem defaultLimits_withDefaults : defaultLimits.withDefaults = defaultLimits := by
  decide

/-- `sectionHeaderV1` from `wire.go`. -/
structure sectionHeaderV1 where
  SectionType : Nat
  SectionFlags : Nat
  PayloadLen : Nat
  Reserved : Nat
deriving DecidableEq, Repr

/-- `fixedHeaderV1` from `wire.go`. -/
structure fixedHeaderV1 where
  Magic : List Nat
  Version : Nat
  HeaderFlags : Nat
  FixedHdrSize : Nat
  MetadataLength : Nat
  Reserved0 : Nat
  Reserved1 : Nat
deriving DecidableEq, Repr

/-- The byte layout written by `writeFixedHeader`. -/
def serializeFixedHeader (h : fixedHeaderV1) : List Nat :=
  h.Magic.take 8 ++ toLE 2 h.Version ++ toLE 2 h.HeaderFlags ++ toLE 4 h.FixedHdrSize ++
    toLE 4 h.MetadataLength ++ toLE 4 h.Reserved0 ++ toLE 8 h.Reserved1

/-- The field extraction performed by `readFixedHeader` on a 32-byte buffer. -/
def parseFixedHeader (buf : List Nat) : fixedHeaderV1 where
  Magic := buf.take 8
  Version := fromLE ((buf.drop 8).take 2)
  HeaderFlags := fromLE ((buf.drop 10).take 2)
  FixedHdrSize := fromLE ((buf.drop 12).take 4)
  MetadataLength := fromLE ((buf.drop 16).take 4)
  Reserved0 := fromLE ((buf.drop 20).take 4)
  Reserved1 := fromLE ((buf.drop 24).take 8)

/-- The byte layout written by `writeSectionHeader`. -/
def serializeSectionHeader (sh : sectionHeaderV1) : List Nat :=
  toLE 2 sh.SectionType ++ toLE 2 sh.SectionFlags ++ toLE 8 sh.PayloadLen ++ toLE 4 sh.Reserved

/-- The field extraction performed by `readSectionHeader` on a 16-byte buffer. -/
def parseSectionHeader (buf : List Nat) : sectionHeaderV1 where
  SectionType := fromLE (buf.take 2)
  SectionFlags := fromLE ((buf.drop 2).take 2)
  PayloadLen := fromLE ((buf.drop 4).take 8)
  Reserved := fromLE ((buf.drop 12).take 4)

/-- `(sh sectionHeaderV1) compression()`. -/
def sectionHeaderV1.compression (sh : sectionHeaderV1) : Nat :=
  sh.SectionFlags &&& sectionFlagCompressionMask

/-- `(sh sectionHeaderV1) hasUncompressedLen()`. -/
def sectionHeaderV1.hasUncompressedLen (sh : sectionHeaderV1) : Bool :=
  sh.SectionFlags &&& sectionFlagHasUncompressedLen ≠ 0

/-- `validateSectionHeader` from `wire.go`. -/
def validateSectionHeader (sh : sectionHeaderV1) (expected : Nat) : Except MdocxError Unit :=
  if sh.Reserved ≠ 0 then .error .invalidSection
  else if sh.SectionType ≠ expected then .error .invalidSection
  else
    let comp := sh.compression
    if comp = CompNone ∨ comp = CompZIP ∨ comp = CompZSTD ∨ comp = CompLZ4 ∨ comp = CompBR then
      if comp = CompNone then
        if sh.hasUncompressedLen then .error .invalidSection else .ok ()
      else
        if ¬ sh.hasUncompressedLen then .error .invalidSection else .ok ()
    else .error .invalidSection

/-!
## Compression envelope (`compress.go`)

The four underlying compression libraries (`archive/zip`,
`klauspost/compress/zstd`, `pierrec/lz4`, `andybalholm/brotli`) are
external dependencies that `compress.go` reaches through injectable
function variables.  They are modelled as the fields of `CodecImpl`;
the envelope logic itself (`compressPayload` / `decompressPayload`) is
translated from the source.
-/

/-- The external per-algorithm compression routines, as injected in
`compress.go`.  A compressor maps plaintext to compressed bytes; a
decompressor takes compressed bytes and the expected uncompressed length
(the hard upper bound handed to the library). -/
structure CodecImpl where
  zipCompress : List Nat → Except MdocxError (List Nat)
  zipDecompress : List Nat → Nat → Except MdocxError (List Nat)
  zstdCompress : List Nat → Except MdocxError (List Nat)
  zstdDecompress : List Nat → Nat → Except MdocxError (List Nat)
  lz4Compress : List Nat → Except MdocxError (List Nat)
  lz4Decompress : List Nat → Nat → Except MdocxError (List Nat)
  brotliCompress : List Nat → Except MdocxError (List Nat)
  brotliDecompress : List Nat → Nat → Except MdocxError (List Nat)

/-- The compressor selected by the `switch comp` in `compressPayload`;
`none` is the `default` (unknown compression) branch. -/
def CodecImpl.compressFn (impl : CodecImpl) (comp : Nat) :
    Option (List Nat → Except MdocxError (List Nat)) :=
  if comp = CompZIP then some impl.zipCompress
  else if comp = CompZSTD then some impl.zstdCompress
  else if comp = CompLZ4 then some impl.lz4Compress
  else if comp = CompBR then some impl.brotliCompress
  else none

/-- The decompressor selected by the `switch comp` in `decompressPayload`. -/
def CodecImpl.decompressFn (impl : CodecImpl) (comp : Nat) :
    Option (List Nat → Nat → Except MdocxError (List Nat)) :=
  if comp = CompZIP then some impl.zipDecompress
  else if comp = CompZSTD then some impl.zstdDecompress
  else if comp = CompLZ4 then some impl.lz4Decompress
  else if comp = CompBR then some impl.brotliDecompress
  else none

/-- `compressPayload` from `compress.go`: returns the section flags and
the framed payload (8-byte little-endian uncompressed-length prefix for
every codec other than `CompNone`). -/
def compressPayload (impl : CodecImpl) (comp : Nat) (gobBytes : List Nat) :
    Except MdocxError (Nat × List Nat) :=
  if comp = CompNone then .ok (CompNone, gobBytes)
  else
    match impl.compressFn comp with
    | none => .error .invalidPayload
    | some f =>
      match f gobBytes with
      | .error e => .error e
      | .ok compressed =>
          .ok (comp ||| sectionFlagHasUncompressedLen, toLE 8 gobBytes.length ++ compressed)

/-- `decompressPayload` from `compress.go`.  The declared uncompressed
length is checked against `maxUncompressed` *before* the codec switch;
a successful result must have exactly the declared length. -/
def decompressPayload (impl : CodecImpl) (comp : Nat) (sectionFlags : Nat)
    (payload : List Nat) (maxUncompressed : Nat) : Except MdocxError (List Nat) :=
  let hasLen := sectionFlags &&& sectionFlagHasUncompressedLen ≠ 0
  if comp = CompNone then
    if hasLen then .error .invalidPayload else .ok payload
  else if ¬ hasLen then .error .invalidPayload
  else if payload.length < 8 then .error .invalidPayload
  else
    let uncompressedLen := fromLE (payload.take 8)
    if uncompressedLen > maxUncompressed then .error .limitExceeded
    else
      let compressedBytes := payload.drop 8
      match impl.decompressFn comp with
      | none => .error .invalidPayload
      | some f =>
        match f compressedBytes uncompressedLen with
        | .error e => .error e
        | .ok out =>
            if out.length ≠ uncompressedLen then .error .invalidPayload else .ok out

/-!
## Container-path validation (`validate.go` / Go `path.Clean`)

`validateContainerPath` calls `strings.TrimSpace`, `strings.HasPrefix`,
`strings.Contains` and `path.Clean` from the Go standard library; these
are concrete lexical algorithms and are translated here byte for byte
(for `Clean`, from the Plan 9 algorithm in Go's `path/path.go`).
-/

/-- Go `unicode.IsSpace`: the white-space code points recognised by
`strings.TrimSpace`. -/
def isGoSpace (c : Char) : Bool :=
  c = ' ' ∨ c = '\t' ∨ c = '\n' ∨ c.toNat = 0x0B ∨ c.toNat = 0x0C ∨ c = '\r' ∨
    c.toNat = 0x85 ∨ c.toNat = 0xA0 ∨ c.toNat = 0x1680 ∨
    (0x2000 ≤ c.toNat ∧ c.toNat ≤ 0x200A) ∨ c.toNat = 0x2028 ∨ c.toNat = 0x2029 ∨
    c.toNat = 0x202F ∨ c.toNat = 0x205F ∨ c.toNat = 0x3000

/-- `strings.TrimSpace(s) == ""`: every character is white space. -/
def isBlankString (s : String) : Bool :=
  s.toList.all isGoSpace

/-- The backtracking loop of the `..` case of `path.Clean`:
`for out.w > dotdot && out.index(out.w) != '/' { out.w-- }`, structurally
recursive on the cursor `w`. -/
def shrinkW (buf : List Char) (dotdot : Nat) : Nat → Nat
  | 0 => 0
  | w + 1 =>
      if w + 1 > dotdot ∧ buf.getD (w + 1) ' ' ≠ '/' then shrinkW buf dotdot w
      else w + 1

/-- True when a path element ends here (end of string or a `/`). -/
def atElemEnd : List Char → Bool
  | [] => true
  | c :: _ => c = '/'

/-- The main loop of `path.Clean`.  `inp` is the unread remainder,
`out` the output buffer, `dotdot` the index up to which `..` may not
backtrack.  The loop consumes at least one input character per
iteration, so fuel `inp.length + 1` never runs out (fuel makes the
definition structurally recursive and kernel-reducible). -/
def cleanStep (rooted : Bool) : Nat → List Char → List Char → Nat → List Char
  | 0, _, out, _ => out
  | fuel + 1, inp, out, dotdot =>
    match inp with
    | [] => out
    | c :: rest =>
      if c = '/' then
        -- empty path element
        cleanStep rooted fuel rest out dotdot
      else if c = '.' ∧ atElemEnd rest then
        -- "." element
        cleanStep rooted fuel rest out dotdot
      else if c = '.' ∧ rest.head? = some '.' ∧ atElemEnd rest.tail then
        -- ".." element
        if out.length > dotdot then
          cleanStep rooted fuel rest.tail (out.take (shrinkW out dotdot (out.length - 1))) dotdot
        else if ¬ rooted then
          let out1 := if out.length > 0 then out ++ ['/', '.', '.'] else out ++ ['.', '.']
          cleanStep rooted fuel rest.tail out1 out1.length
        else
          cleanStep rooted fuel rest.tail out dotdot
      else
        -- real path element: add a separator if needed, copy the element
        let sep := if rooted then out.length ≠ 1 else out.length ≠ 0
        let out1 := (if sep then out ++ ['/'] else out) ++ inp.takeWhile (· ≠ '/')
        cleanStep rooted fuel (inp.dropWhile (· ≠ '/')) out1 dotdot

/-- Go `path.Clean`. -/
def pathClean (p : String) : String :=
  match p.toList with
  | [] => "."
  | c :: _ =>
      let rooted := c = '/'
      let inp := if rooted then (p.toList).tail else p.toList
      let out0 : List Char := if rooted then ['/'] else []
      let dd0 : Nat := if rooted then 1 else 0
      let out := cleanStep rooted (inp.length + 1) inp out0 dd0
      if out.length = 0 then "." else String.mk out

/-- Go `strings.HasPrefix(p, "/")`. -/
def leadingSlash (p : String) : Bool :=
  p.toList.head? = some '/'

/-- Go `strings.HasPrefix(s, "../")`. -/
def leadsDotDotSlash (s : String) : Bool :=
  match s.toList with
  | '.' :: '.' :: '/' :: _ => true
  | _ => false

/-- `validateContainerPath` from `validate.go`.  Returns `true` when the
path is accepted; every rejection is wrapped by the callers into a
`validation` error. -/
def validateContainerPath (p : String) : Bool :=
  if isBlankString p then false
  else if leadingSlash p then false
  else if p.toList.contains '\\' then false
  else
    let clean := pathClean p
    if clean ≠ p then false
    else if clean = "." then false
    else if clean = ".." ∨ leadsDotDotSlash clean then false
    else true

/-!
## Data model (`types.go`) and document validator (`validate.go`)
-/

/-- Go `utf8.Valid` (RFC 3629 well-formedness, `unicode/utf8`), written
with fuel `≥ length + 1` so the recursion is structural; each loop
iteration consumes at least one byte. -/
def utf8ValidAux : Nat → List Nat → Bool
  | 0, l => l.isEmpty
  | fuel + 1, l =>
    match l with
    | [] => true
    | b :: rest =>
      if b < 0x80 then utf8ValidAux fuel rest
      else if b < 0xC2 then false
      else if b ≤ 0xDF then
        match rest with
        | b1 :: r => if 0x80 ≤ b1 ∧ b1 ≤ 0xBF then utf8ValidAux fuel r else false
        | [] => false
      else if b ≤ 0xEF then
        let lo := if b = 0xE0 then 0xA0 else 0x80
        let hi := if b = 0xED then 0x9F else 0xBF
        match rest with
        | b1 :: b2 :: r =>
            if (lo ≤ b1 ∧ b1 ≤ hi) ∧ (0x80 ≤ b2 ∧ b2 ≤ 0xBF) then utf8ValidAux fuel r
            else false
        | _ => false
      else if b ≤ 0xF4 then
        let lo := if b = 0xF0 then 0x90 else 0x80
        let hi := if b = 0xF4 then 0x8F else 0xBF
        match rest with
        | b1 :: b2 :: b3 :: r =>
            if (lo ≤ b1 ∧ b1 ≤ hi) ∧ (0x80 ≤ b2 ∧ b2 ≤ 0xBF) ∧ (0x80 ≤ b3 ∧ b3 ≤ 0xBF) then
              utf8ValidAux fuel r
            else false
        | _ => false
      else false

/-- Go `utf8.Valid`. -/
def utf8Valid (l : List Nat) : Bool :=
  utf8ValidAux (l.length + 1) l

/-- `MediaItem` from `types.go`.  `SHA256` is a 32-byte digest
(`List.replicate 32 0` is the Go zero value, meaning "unset"). -/
structure MediaItem where
  ID : String
  Path : String
  MIMEType : String
  Data : List Nat
  SHA256 : List Nat
  Attributes : List (String × String)
deriving DecidableEq, Repr

/-- The all-zero `[32]byte`. -/
def zero32 : List Nat := List.replicate 32 0

/-- `MarkdownFile` from `types.go`. -/
structure MarkdownFile where
  Path : String
  Content : List Nat
  MediaRefs : List String
  Attributes : List (String × String)
deriving DecidableEq, Repr

/-- `MarkdownBundle` from `types.go` (`RootPath = ""` is the unset value). -/
structure MarkdownBundle where
  BundleVersion : Nat
  RootPath : String
  Files : List MarkdownFile
deriving DecidableEq, Repr

/-- `MediaBundle` from `types.go`. -/
structure MediaBundle where
  BundleVersion : Nat
  Items : List MediaItem
deriving DecidableEq, Repr

/-- JSON values, for the metadata object (`map[string]any` in Go). -/
inductive Json where
  | null
  | bool (b : Bool)
  | num (n : Int)
  | str (s : String)
  | arr (elems : List Json)
  | obj (fields : List (String × Json))

/-- `Document` from `types.go`: `Metadata` is `none` for Go's nil map,
otherwise the fields of the JSON object. -/
structure Document where
  Metadata : Option (List (String × Json))
  Markdown : MarkdownBundle
  Media : MediaBundle

/-- The reasons `validateDocument` can fail, one per `return` in the
source, carrying the index of the offending file/item where the source
reports one.  `VErr.kind` maps each reason to the sentinel error the
source wraps it in (`ErrValidation` or `ErrLimitExceeded`). -/
inductive VErr where
  | markdownVersion
  | noFiles
  | tooManyFiles
  | rootPath
  | filePath (i : Nat)
  | duplicatePath (i : Nat)
  | fileNotUTF8 (i : Nat)
  | fileTooLarge (i : Nat)
  | mediaVersion
  | tooManyItems
  | emptyID (i : Nat)
  | duplicateID (i : Nat)
  | itemPath (i : Nat)
  | itemTooLarge (i : Nat)
  | shaMismatch (i : Nat)
deriving DecidableEq, Repr

/-- The sentinel error kind each validation failure is wrapped in. -/
def VErr.kind : VErr → MdocxError
  | .tooManyFiles => .limitExceeded
  | .fileTooLarge _ => .limitExceeded
  | .tooManyItems => .limitExceeded
  | .itemTooLarge _ => .limitExceeded
  | _ => .validation

/-- The per-file loop of `validateDocument`: path legality, uniqueness
against `seenPaths`, UTF-8 validity, single-file size ceiling. -/
def validateFiles (limits : Limits) : List MarkdownFile → List String → Nat → Except VErr Unit
  | [], _, _ => .ok ()
  | f :: rest, seen, i =>
      if ¬ validateContainerPath f.Path then .error (.filePath i)
      else if f.Path ∈ seen then .error (.duplicatePath i)
      else if ¬ utf8Valid f.Content then .error (.fileNotUTF8 i)
      else if f.Content.length > limits.MaxSingleMarkdownFileSize then .error (.fileTooLarge i)
      else validateFiles limits rest (f.Path :: seen) (i + 1)

/-- The per-item loop of `validateDocument`: blank-ID, uniqueness against
`seenIDs`, optional path legality, single-item size ceiling, and — only
when `verifyHashes` is set and the stored digest is non-zero — the
SHA-256 comparison (`subtle.ConstantTimeCompare` of two 32-byte arrays
succeeds exactly on equality; the timing property itself is outside this
embedding). -/
def validateItems (sha : List Nat → List Nat) (limits : Limits) (verifyHashes : Bool) :
    List MediaItem → List String → Nat → Except VErr Unit
  | [], _, _ => .ok ()
  | it :: rest, seen, i =>
      if isBlankString it.ID then .error (.emptyID i)
      else if it.ID ∈ seen then .error (.duplicateID i)
      else if it.Path ≠ "" ∧ ¬ validateContainerPath it.Path then .error (.itemPath i)
      else if it.Data.length > limits.MaxSingleMediaSize then .error (.itemTooLarge i)
      else if verifyHashes ∧ it.SHA256 ≠ zero32 ∧ sha it.Data ≠ it.SHA256 then
        .error (.shaMismatch i)
      else validateItems sha limits verifyHashes rest (it.ID :: seen) (i + 1)

/-- `validateDocument` from `validate.go` (the `doc == nil` guard has no
counterpart here because the embedding passes documents by value;
`sha` models `crypto/sha256.Sum256`, used by `computedSHA256`). -/
def validateDocument (sha : List Nat → List Nat) (doc : Document) (limits : Limits)
    (verifyHashes : Bool) : Except VErr Unit :=
  if doc.Markdown.BundleVersion ≠ VersionV1 then .error .markdownVersion
  else if doc.Markdown.Files.isEmpty then .error .noFiles
  else if doc.Markdown.Files.length > limits.MaxMarkdownFiles then .error .tooManyFiles
  else if doc.Markdown.RootPath ≠ "" ∧ ¬ validateContainerPath doc.Markdown.RootPath then
    .error .rootPath
  else
    match validateFiles limits doc.Markdown.Files [] 0 with
    | .error e => .error e
    | .ok _ =>
      if doc.Media.BundleVersion ≠ VersionV1 then .error .mediaVersion
      else if doc.Media.Items.length > limits.MaxMediaItems then .error .tooManyItems
      else validateItems sha limits verifyHashes doc.Media.Items [] 0

/-!
## Codec orchestrators (`encode.go`, `decode.go`)

The writer/reader are pure: the output stream is the returned byte list,
the input stream is a byte list consumed from the front (`readFull n`
fails on a short read, modelling `io.ReadFull` returning
`io.ErrUnexpectedEOF`, which both orchestrators propagate verbatim).
The external serializers (`encoding/gob`, `encoding/json`,
`crypto/sha256`) are fields of `EncodeDeps` / `DecodeDeps`, mirroring
the injectable function variables of `encode.go`.
-/

/-- `writeConfig` from the options file. -/
structure writeConfig where
  limits : Limits
  verifyHashes : Bool
  autoPopulate : Bool
  mdCompression : Nat
  mediaCompression : Nat

/-- The `writeConfig` Encode starts from before applying options. -/
def defaultWriteConfig : writeConfig where
  limits := defaultLimits
  verifyHashes := true
  autoPopulate := true
  mdCompression := CompZSTD
  mediaCompression := CompZSTD

/-- `readConfig` from the options file. -/
structure readConfig where
  limits : Limits
  verifyHashes : Bool

/-- The `readConfig` Decode starts from before applying options. -/
def defaultReadConfig : readConfig where
  limits := defaultLimits
  verifyHashes := true

/-- External dependencies of `Encode`. -/
structure EncodeDeps where
  codec : CodecImpl
  jsonMarshal : List (String × Json) → Except MdocxError (List Nat)
  gobEncodeMarkdown : MarkdownBundle → Except MdocxError (List Nat)
  gobEncodeMedia : MediaBundle → Except MdocxError (List Nat)
  sha : List Nat → List Nat

/-- External dependencies of `Decode`.  `jsonUnmarshal` models
`json.Unmarshal(mb, &m)` for `m : map[string]any`: `.ok none` is a
successfully parsed JSON `null` (the map stays nil), `.ok (some m)` a
JSON object, and `.error e` any json error (returned verbatim by
`Decode`). -/
structure DecodeDeps where
  codec : CodecImpl
  jsonUnmarshal : List Nat → Except MdocxError (Option (List (String × Json)))
  gobDecodeMarkdown : List Nat → Except MdocxError MarkdownBundle
  gobDecodeMedia : List Nat → Except MdocxError MediaBundle
  sha : List Nat → List Nat

/-- The auto-population step of `Encode`: items whose stored digest is
zero get `computedSHA256()` written into `SHA256`. -/
def populateItem (sha : List Nat → List Nat) (it : MediaItem) : MediaItem :=
  if it.SHA256 = zero32 then { it with SHA256 := sha it.Data } else it

/-- `Encode`'s in-place mutation of `doc.Media.Items`, as a function. -/
def populateSHA (sha : List Nat → List Nat) (doc : Document) : Document :=
  { doc with Media := { doc.Media with Items := doc.Media.Items.map (populateItem sha) } }

/-- `Encode` from `encode.go`.  The first component is the document as
Encode leaves it (auto-population is its only mutation); the second is
the produced byte stream, or the error. All modelled failure modes
(validation, metadata marshalling/limit, gob, compression) occur before
the first write, as in the source; writer failures are not modelled. -/
def Encode (deps : EncodeDeps) (cfg : writeConfig) (doc : Document) :
    Document × Except MdocxError (List Nat) :=
  let limits := cfg.limits.withDefaults
  let doc1 := if cfg.autoPopulate then populateSHA deps.sha doc else doc
  (doc1,
    match validateDocument deps.sha doc1 limits cfg.verifyHashes with
    | .error e => .error e.kind
    | .ok _ =>
      let metaRes : Except MdocxError (List Nat × Nat) :=
        match doc1.Metadata with
        | none => .ok ([], 0)
        | some m =>
          match deps.jsonMarshal m with
          | .error e => .error e
          | .ok b =>
              if b.length > limits.MaxMetadataLen then .error .limitExceeded
              else .ok (b, HeaderFlagMetadataJSON)
      match metaRes with
      | .error e => .error e
      | .ok (metadataBytes, headerFlags) =>
        match deps.gobEncodeMarkdown doc1.Markdown with
        | .error e => .error e
        | .ok mdGob =>
          match deps.gobEncodeMedia doc1.Media with
          | .error e => .error e
          | .ok mediaGob =>
            match compressPayload deps.codec cfg.mdCompression mdGob with
            | .error e => .error e
            | .ok (mdFlags, mdPayload) =>
              match compressPayload deps.codec cfg.mediaCompression mediaGob with
              | .error e => .error e
              | .ok (mediaFlags, mediaPayload) =>
                let h : fixedHeaderV1 :=
                  { Magic := Magic, Version := VersionV1, HeaderFlags := headerFlags,
                    FixedHdrSize := fixedHeaderSizeV1, MetadataLength := metadataBytes.length,
                    Reserved0 := 0, Reserved1 := 0 }
                let mdHeader : sectionHeaderV1 :=
                  { SectionType := SectionMarkdown, SectionFlags := mdFlags,
                    PayloadLen := mdPayload.length, Reserved := 0 }
                let mediaHeader : sectionHeaderV1 :=
                  { SectionType := SectionMedia, SectionFlags := mediaFlags,
                    PayloadLen := mediaPayload.length, Reserved := 0 }
                .ok (serializeFixedHeader h ++ metadataBytes ++
                      serializeSectionHeader mdHeader ++ mdPayload ++
                      serializeSectionHeader mediaHeader ++ mediaPayload))

/-- `io.ReadFull`: consume exactly `n` bytes from the stream or fail. -/
def readFull (input : List Nat) (n : Nat) : Except MdocxError (List Nat × List Nat) :=
  if input.length < n then .error .ioErr else .ok (input.take n, input.drop n)

/-- Steps (a)–(b) of `Decode`: fixed header checks and the optional
metadata block.  Returns the metadata (none when absent) and the unread
remainder of the stream. -/
def decodeFixedAndMetadata (deps : DecodeDeps) (limits : Limits) (input : List Nat) :
    Except MdocxError (Option (List (String × Json)) × List Nat) :=
  match readFull input 32 with
  | .error e => .error e
  | .ok (hbuf, r1) =>
    let h := parseFixedHeader hbuf
    if h.Magic ≠ Magic then .error .invalidMagic
    else if h.FixedHdrSize ≠ fixedHeaderSizeV1 then .error .invalidHeader
    else if h.Version ≠ VersionV1 then .error .unsupportedVersion
    else if h.Reserved0 ≠ 0 ∨ h.Reserved1 ≠ 0 then .error .invalidHeader
    else if h.MetadataLength > limits.MaxMetadataLen then .error .limitExceeded
    else if h.MetadataLength > 0 then
      match readFull r1 h.MetadataLength with
      | .error e => .error e
      | .ok (mb, r2) =>
        if h.HeaderFlags &&& HeaderFlagMetadataJSON = 0 then .error .invalidHeader
        else
          match deps.jsonUnmarshal mb with
          | .error e => .error e
          | .ok none => .error .invalidHeader
          | .ok (some m) => .ok (some m, r2)
    else .ok (none, r1)

/-- Step (c) of `Decode`: the Markdown section. -/
def decodeMarkdownSection (deps : DecodeDeps) (limits : Limits) (input : List Nat) :
    Except MdocxError (MarkdownBundle × List Nat) :=
  match readFull input 16 with
  | .error e => .error e
  | .ok (shbuf, r) =>
    let mdSec := parseSectionHeader shbuf
    match validateSectionHeader mdSec SectionMarkdown with
    | .error e => .error e
    | .ok _ =>
      if mdSec.PayloadLen > limits.MaxMarkdownSectionLen then .error .limitExceeded
      else
        match readFull r mdSec.PayloadLen with
        | .error e => .error e
        | .ok (mdPayload, r2) =>
          match decompressPayload deps.codec mdSec.compression mdSec.SectionFlags mdPayload
              limits.MaxMarkdownUncompressed with
          | .error e => .error e
          | .ok mdGob =>
            match deps.gobDecodeMarkdown mdGob with
            | .error e => .error e
            | .ok markdown => .ok (markdown, r2)

/-- Step (d) of `Decode`: the Media section, with the empty fast path
(`PayloadLen == 0` synthesizes `MediaBundle{BundleVersion: 1}` without
decompression or payload decode). -/
def decodeMediaSection (deps : DecodeDeps) (limits : Limits) (input : List Nat) :
    Except MdocxError (MediaBundle × List Nat) :=
  match readFull input 16 with
  | .error e => .error e
  | .ok (shbuf, r) =>
    let mediaSec := parseSectionHeader shbuf
    match validateSectionHeader mediaSec SectionMedia with
    | .error e => .error e
    | .ok _ =>
      if mediaSec.PayloadLen > limits.MaxMediaSectionLen then .error .limitExceeded
      else if mediaSec.PayloadLen = 0 then
        .ok ({ BundleVersion := VersionV1, Items := [] }, r)
      else
        match readFull r mediaSec.PayloadLen with
        | .error e => .error e
        | .ok (mediaPayload, r2) =>
          match decompressPayload deps.codec mediaSec.compression mediaSec.SectionFlags
              mediaPayload limits.MaxMediaUncompressed with
          | .error e => .error e
          | .ok mediaGob =>
            match deps.gobDecodeMedia mediaGob with
            | .error e => .error e
            | .ok media => .ok (media, r2)

/-- `Decode` from `decode.go`: header+metadata, Markdown section, Media
section, then full document validation. -/
def Decode (deps : DecodeDeps) (cfg : readConfig) (input : List Nat) :
    Except MdocxError Document :=
  let limits := cfg.limits.withDefaults
  match decodeFixedAndMetadata deps limits input with
  | .error e => .error e
  | .ok (metadata, r1) =>
    match decodeMarkdownSection deps limits r1 with
    | .error e => .error e
    | .ok (markdown, r2) =>
      match decodeMediaSection deps limits r2 with
      | .error e => .error e
      | .ok (media, _) =>
        let doc : Document := { Metadata := metadata, Markdown := markdown, Media := media }
        match validateDocument deps.sha doc limits cfg.verifyHashes with
        | .error e => .error e.kind
        | .ok _ => .ok doc

/-!
## Theorems
-/

/-- A codec implementation whose routines all fail: used by witnesses to
show that certain paths never reach the underlying libraries. -/
def codecImpl0 : CodecImpl where
  zipCompress := fun _ => .error .codecErr
  zipDecompress := fun _ _ => .error .codecErr
  zstdCompress := fun _ => .error .codecErr
  zstdDecompress := fun _ _ => .error .codecErr
  lz4Compress := fun _ => .error .codecErr
  lz4Decompress := fun _ _ => .error .codecErr
  brotliCompress := fun _ => .error .codecErr
  brotliDecompress := fun _ _ => .error .codecErr

/-- An identity codec implementation: every compressor returns its input
and every decompressor returns the stored bytes, a legitimate instance
of the compression contract (`ExtCodecOK`) for witnesses. -/
def codecId : CodecImpl where
  zipCompress := fun b => .ok b
  zipDecompress := fun cb _ => .ok cb
  zstdCompress := fun b => .ok b
  zstdDecompress := fun cb _ => .ok cb
  lz4Compress := fun b => .ok b
  lz4Decompress := fun cb _ => .ok cb
  brotliCompress := fun b => .ok b
  brotliDecompress := fun cb _ => .ok cb

/-- A fixed stand-in for `crypto/sha256.Sum256` used by concrete
witnesses and counterexamples (only digest comparisons matter to the
claims, never digest values). -/
def sha0 : List Nat → List Nat := fun _ => List.replicate 32 1

/-- Encode dependencies for witnesses whose claims never reach the
external serializers. -/
def encodeDeps0 : EncodeDeps where
  codec := codecImpl0
  jsonMarshal := fun _ => .error .jsonErr
  gobEncodeMarkdown := fun _ => .error .gobErr
  gobEncodeMedia := fun _ => .error .gobErr
  sha := sha0

/-- Decode dependencies for witnesses whose claims never reach the
external deserializers. -/
def decodeDeps0 : DecodeDeps where
  codec := codecImpl0
  jsonUnmarshal := fun _ => .error .jsonErr
  gobDecodeMarkdown := fun _ => .error .gobErr
  gobDecodeMedia := fun _ => .error .gobErr
  sha := sha0

/-- C2: for every codec other than `CompNone`, every flags value with the
uncompressed-length bit set, and every framed payload of at least 8 bytes
whose declared little-endian uncompressed length exceeds
`maxUncompressed`, `decompressPayload` fails with `LimitExceeded`.  The
statement holds for *every* `CodecImpl`, so the declared length alone
decides the outcome and no underlying decompression routine is consulted. -/
theorem c2_bomb_guard (impl : CodecImpl) (comp flags maxU : Nat) (payload : List Nat)
    (hcomp : comp ≠ CompNone)
    (hflag : flags &&& sectionFlagHasUncompressedLen ≠ 0)
    (hlen : 8 ≤ payload.length)
    (hbig : fromLE (payload.take 8) > maxU) :
    decompressPayload impl comp flags payload maxU = .error .limitExceeded := by
  unfold decompressPayload
  simp [hcomp, hflag, Nat.not_lt.mpr hlen, hbig]

/-- Witness for C2 at a concrete input: declared length `2^56` against a
ceiling of `0`, under the all-failing codec implementation. -/
theorem c2_witness :
    decompressPayload codecImpl0 CompZSTD 16 [0, 0, 0, 0, 0, 0, 0, 1, 9] 0 =
      .error .limitExceeded :=
  c2_bomb_guard codecImpl0 CompZSTD 16 0 [0, 0, 0, 0, 0, 0, 0, 1, 9]
    (by decide) (by decide) (by decide) (by decide)

/-- C3: for every codec other than `CompNone`, (1) whenever
`decompressPayload` succeeds, the returned plaintext has exactly the
declared little-endian uncompressed length; (2) if the underlying
codec's routine is consulted and returns bytes of a different length,
`decompressPayload` rejects them with `InvalidPayload`. -/
theorem c3_declared_length (impl : CodecImpl) (comp flags maxU : Nat) (payload : List Nat) :
    (∀ out, comp ≠ CompNone →
      decompressPayload impl comp flags payload maxU = .ok out →
      out.length = fromLE (payload.take 8)) ∧
    (∀ f bs, comp ≠ CompNone →
      flags &&& sectionFlagHasUncompressedLen ≠ 0 →
      8 ≤ payload.length →
      fromLE (payload.take 8) ≤ maxU →
      impl.decompressFn comp = some f →
      f (payload.drop 8) (fromLE (payload.take 8)) = .ok bs →
      bs.length ≠ fromLE (payload.take 8) →
      decompressPayload impl comp flags payload maxU = .error .invalidPayload) := by
  constructor
  · intro out hcomp hok
    unfold decompressPayload at hok
    by_cases hflag : flags &&& sectionFlagHasUncompressedLen ≠ 0
    · by_cases hshort : payload.length < 8
      · simp [hcomp, hflag, hshort] at hok
      · by_cases hbig : fromLE (payload.take 8) > maxU
        · simp [hcomp, hflag, hshort, hbig] at hok
        · cases hfn : impl.decompressFn comp with
          | none => simp [hcomp, hflag, hshort, hbig, hfn] at hok
          | some f =>
            cases hres : f (payload.drop 8) (fromLE (payload.take 8)) with
            | error e => simp [hcomp, hflag, hshort, hbig, hfn, hres] at hok
            | ok out' =>
              by_cases hne : out'.length = fromLE (payload.take 8)
              · have h : out' = out := by
                  simpa [hcomp, hflag, hshort, hbig, hfn, hres, hne] using hok
                rw [← h]
                exact hne
              · simp [hcomp, hflag, hshort, hbig, hfn, hres, hne] at hok
    · simp [hcomp, hflag] at hok
  · intro f bs hcomp hflag hlen hle hfn hres hne
    unfold decompressPayload
    simp [hcomp, hflag, Nat.not_lt.mpr hlen, Nat.not_lt.mpr hle, hfn, hres, hne]

/-- Witness for C3 at the identity codec, exercising both conjuncts: a
successful LZ4 decompression of the framed payload `len=2 ∥ [5, 6]`
returns exactly the 2 declared bytes, and for the framed payload
`len=3 ∥ [5, 6]` the codec's 2-byte output disagrees with the declared
length 3, so `decompressPayload` rejects it with `InvalidPayload`. -/
theorem c3_witness :
    (decompressPayload codecId CompLZ4 16 [2, 0, 0, 0, 0, 0, 0, 0, 5, 6] 9 = .ok [5, 6] ∧
      ([5, 6] : List Nat).length = fromLE ([2, 0, 0, 0, 0, 0, 0, 0, 5, 6].take 8)) ∧
    (codecId.decompressFn CompLZ4 = some codecId.lz4Decompress ∧
      codecId.lz4Decompress ([3, 0, 0, 0, 0, 0, 0, 0, 5, 6].drop 8)
        (fromLE ([3, 0, 0, 0, 0, 0, 0, 0, 5, 6].take 8)) = .ok [5, 6] ∧
      ([5, 6] : List Nat).length ≠ fromLE ([3, 0, 0, 0, 0, 0, 0, 0, 5, 6].take 8) ∧
      decompressPayload codecId CompLZ4 16 [3, 0, 0, 0, 0, 0, 0, 0, 5, 6] 9 =
        .error .invalidPayload) :=
  ⟨⟨by decide,
    (c3_declared_length codecId CompLZ4 16 9 [2, 0, 0, 0, 0, 0, 0, 0, 5, 6]).1
      [5, 6] (by decide) (by decide)⟩,
   ⟨rfl, by decide, by decide,
    (c3_declared_length codecId CompLZ4 16 9 [3, 0, 0, 0, 0, 0, 0, 0, 5, 6]).2
      codecId.lz4Decompress [5, 6] (by decide) (by decide) (by decide) (by decide) rfl
      (by decide) (by decide)⟩⟩

/-- C4: `validateSectionHeader` succeeds exactly when the reserved field
is zero, the section type equals the expected type, the compression id in
the low 4 bits of the flags is one of 0..4, and the
has-uncompressed-length bit is set exactly for the non-`CompNone` ids;
every failure is an `InvalidSection` error. -/
theorem c4_validate_section_header (sh : sectionHeaderV1) (expected : Nat) :
    (validateSectionHeader sh expected = .ok () ↔
      (sh.Reserved = 0 ∧ sh.SectionType = expected ∧ sh.compression ≤ 4 ∧
        (sh.SectionFlags &&& sectionFlagHasUncompressedLen ≠ 0 ↔ sh.compression ≠ CompNone))) ∧
    (validateSectionHeader sh expected = .ok () ∨
      validateSectionHeader sh expected = .error .invalidSection) := by
  have hbit : sh.hasUncompressedLen = true ↔
      sh.SectionFlags &&& sectionFlagHasUncompressedLen ≠ 0 := by
    simp [sectionHeaderV1.hasUncompressedLen]
  have hmem : (sh.compression = CompNone ∨ sh.compression = CompZIP ∨ sh.compression = CompZSTD ∨
      sh.compression = CompLZ4 ∨ sh.compression = CompBR) ↔ sh.compression ≤ 4 := by
    simp only [CompNone, CompZIP, CompZSTD, CompLZ4, CompBR]
    omega
  constructor
  · unfold validateSectionHeader
    by_cases h1 : sh.Reserved ≠ 0
    · simp [h1]
    · push_neg at h1
      by_cases h2 : sh.SectionType ≠ expected
      · simp [h1, h2]
      · push_neg at h2
        by_cases h3 : sh.compression ≤ 4
        · have h3' := hmem.mpr h3
          by_cases h4 : sh.compression = CompNone
          · by_cases h5 : sh.hasUncompressedLen
            · simp [h1, h2, h3, h3', h4, h5, ← hbit]
            · simp [h1, h2, h3, h3', h4, h5, ← hbit] <;>
                simp_all [CompNone, CompZIP, CompZSTD, CompLZ4, CompBR] <;> omega
          · by_cases h5 : sh.hasUncompressedLen
            · simp [h1, h2, h3, h3', h4, h5, ← hbit] <;>
                simp_all [CompNone, CompZIP, CompZSTD, CompLZ4, CompBR] <;> omega
            · simp [h1, h2, h3, h3', h4, h5, ← hbit]
        · have h3' : ¬ (sh.compression = CompNone ∨ sh.compression = CompZIP ∨
              sh.compression = CompZSTD ∨ sh.compression = CompLZ4 ∨ sh.compression = CompBR) :=
            fun h => h3 (hmem.mp h)
          simp [h1, h2, h3, h3']
  · unfold validateSectionHeader
    by_cases h1 : sh.Reserved ≠ 0
    · simp [h1]
    · by_cases h2 : sh.SectionType ≠ expected
      · simp [h1, h2]
      · by_cases h3 : (sh.compression = CompNone ∨ sh.compression = CompZIP ∨
            sh.compression = CompZSTD ∨ sh.compression = CompLZ4 ∨ sh.compression = CompBR)
        · by_cases h4 : sh.compression = CompNone
          · by_cases h5 : sh.hasUncompressedLen <;> simp [h1, h2, h3, h4, h5]
          · by_cases h5 : sh.hasUncompressedLen <;> simp [h1, h2, h3, h4, h5] <;>
              simp_all [CompNone, CompZIP, CompZSTD, CompLZ4, CompBR] <;> omega
        · simp [h1, h2, h3]

/-- Witness for C4 (the main statement has no hypothesis; this instance
exercises both directions at concrete headers). -/
theorem c4_witness :
    validateSectionHeader { SectionType := 1, SectionFlags := 18, PayloadLen := 7, Reserved := 0 } 1 = .ok () ∧
    validateSectionHeader { SectionType := 2, SectionFlags := 2, PayloadLen := 7, Reserved := 0 } 2 = .error .invalidSection := by
  have h1 := (c4_validate_section_header
    { SectionType := 1, SectionFlags := 18, PayloadLen := 7, Reserved := 0 } 1).1
  have h2 := (c4_validate_section_header
    { SectionType := 2, SectionFlags := 2, PayloadLen := 7, Reserved := 0 } 2).2
  refine ⟨h1.mpr (by decide), ?_⟩
  rcases h2 with h | h
  · exact absurd ((c4_validate_section_header _ 2).1.mp h) (by decide)
  · exact h

/-- C5: `validateContainerPath` accepts `"docs/readme.md"`, rejects the
ten listed strings, and in general accepts exactly the non-blank strings
that do not start with `/`, contain no backslash, equal their own
lexically-cleaned form, are not `.` or `..`, and do not begin with `../`. -/
theorem c5_path_legality :
    validateContainerPath "docs/readme.md" = true ∧
    validateContainerPath "" = false ∧
    validateContainerPath "/abs" = false ∧
    validateContainerPath "a\\b" = false ∧
    validateContainerPath "a//b" = false ∧
    validateContainerPath "a/./b" = false ∧
    validateContainerPath "a/../b" = false ∧
    validateContainerPath "." = false ∧
    validateContainerPath ".." = false ∧
    validateContainerPath "../x" = false ∧
    validateContainerPath "a/" = false ∧
    ∀ p : String, validateContainerPath p = true ↔
      (¬ isBlankString p ∧ ¬ leadingSlash p ∧ ¬ p.toList.contains '\\' ∧
        pathClean p = p ∧ p ≠ "." ∧ p ≠ ".." ∧ ¬ leadsDotDotSlash p) := by
  refine ⟨by decide, by decide, by decide, by decide, by decide, by decide, by decide,
    by decide, by decide, by decide, by decide, ?_⟩
  intro p
  unfold validateContainerPath
  by_cases h1 : isBlankString p
  · simp [h1]
  · by_cases h2 : leadingSlash p
    · simp [h1, h2]
    · by_cases h3 : p.toList.contains '\\'
      · have h3' : '\\' ∈ p.data := by simpa [String.toList] using h3
        simp [h1, h2, h3, h3']
      · by_cases h4 : pathClean p = p
        · simp [h1, h2, h3, h4]
        · simp [h1, h2, h3, h4]

/-- C8: a Media section whose header validates and declares
`PayloadLen == 0` decodes to the empty media bundle
`{BundleVersion: 1, Items: []}`; the statement holds for *every*
`DecodeDeps`, so neither `decompressPayload`'s underlying codec nor the
payload decoder is consulted, whatever compression id the flags carry. -/
theorem c8_empty_media_fast_path (deps : DecodeDeps) (limits : Limits) (input : List Nat)
    (hlen : 16 ≤ input.length)
    (hval : validateSectionHeader (parseSectionHeader (input.take 16)) SectionMedia = .ok ())
    (hzero : (parseSectionHeader (input.take 16)).PayloadLen = 0) :
    decodeMediaSection deps limits input =
      .ok ({ BundleVersion := VersionV1, Items := [] }, input.drop 16) := by
  unfold decodeMediaSection readFull
  simp [Nat.not_lt.mpr hlen, hval, hzero]

/-- Witness for C8: a 16-byte Media section header carrying compression
id 3 (LZ4) with the length bit set and `PayloadLen = 0`, under the
all-failing codec implementation. -/
theorem c8_witness :
    decodeMediaSection decodeDeps0 defaultLimits
        (toLE 2 2 ++ toLE 2 19 ++ toLE 8 0 ++ toLE 4 0) =
      .ok ({ BundleVersion := VersionV1, Items := [] },
        (toLE 2 2 ++ toLE 2 19 ++ toLE 8 0 ++ toLE 4 0).drop 16) :=
  c8_empty_media_fast_path decodeDeps0 defaultLimits _ (by decide) (by decide) (by decide)

/-- The `CompNone` branch of `decompressPayload`: its result mentions
neither `maxUncompressed` nor the codec implementation. -/
theorem decompressPayload_compNone (impl : CodecImpl) (flags : Nat) (payload : List Nat)
    (maxU : Nat) :
    decompressPayload impl CompNone flags payload maxU =
      if flags &&& sectionFlagHasUncompressedLen ≠ 0 then .error .invalidPayload
      else .ok payload := by
  unfold decompressPayload
  simp

/-- C10: (1) for `CompNone` with the length bit clear, `decompressPayload`
returns the payload verbatim for every `maxUncompressed` (including one
smaller than the payload); (2)/(3) the Markdown/Media section decoders
are independent of the uncompressed ceilings whenever the section's
compression id is `CompNone`; (4) the stored-section ceiling is still
enforced on such sections. -/
theorem c10_compnone_unbounded :
    (∀ (impl : CodecImpl) (flags maxU : Nat) (payload : List Nat),
      flags &&& sectionFlagHasUncompressedLen = 0 →
      decompressPayload impl CompNone flags payload maxU = .ok payload) ∧
    (∀ (deps : DecodeDeps) (l : Limits) (u u' : Nat) (input : List Nat),
      (parseSectionHeader (input.take 16)).compression = CompNone →
      decodeMarkdownSection deps { l with MaxMarkdownUncompressed := u } input =
        decodeMarkdownSection deps { l with MaxMarkdownUncompressed := u' } input) ∧
    (∀ (deps : DecodeDeps) (l : Limits) (u u' : Nat) (input : List Nat),
      (parseSectionHeader (input.take 16)).compression = CompNone →
      decodeMediaSection deps { l with MaxMediaUncompressed := u } input =
        decodeMediaSection deps { l with MaxMediaUncompressed := u' } input) ∧
    (∀ (deps : DecodeDeps) (l : Limits) (input : List Nat),
      16 ≤ input.length →
      validateSectionHeader (parseSectionHeader (input.take 16)) SectionMarkdown = .ok () →
      (parseSectionHeader (input.take 16)).PayloadLen > l.MaxMarkdownSectionLen →
      decodeMarkdownSection deps l input = .error .limitExceeded) := by
  refine ⟨?_, ?_, ?_, ?_⟩
  · intro impl flags maxU payload hflag
    unfold decompressPayload
    simp [hflag]
  · intro deps l u u' input hcomp
    unfold decodeMarkdownSection readFull
    by_cases hl : input.length < 16
    · simp [hl]
    · simp only [hl, ite_false, if_false, hcomp, decompressPayload_compNone]
  · intro deps l u u' input hcomp
    unfold decodeMediaSection readFull
    by_cases hl : input.length < 16
    · simp [hl]
    · simp only [hl, ite_false, if_false, hcomp, decompressPayload_compNone]
  · intro deps l input hlen hval hbig
    unfold decodeMarkdownSection readFull
    simp [Nat.not_lt.mpr hlen, hval, hbig]

/-- Witness for C10: a 5-byte `CompNone` payload passes through verbatim
under a ceiling of 1, and a `CompNone` Markdown section decodes the same
under two different uncompressed ceilings. -/
theorem c10_witness :
    decompressPayload codecImpl0 CompNone 0 [1, 2, 3, 4, 5] 1 = .ok [1, 2, 3, 4, 5] ∧
    decodeMarkdownSection decodeDeps0 { defaultLimits with MaxMarkdownUncompressed := 1 }
        (toLE 2 1 ++ toLE 2 0 ++ toLE 8 0 ++ toLE 4 0) =
      decodeMarkdownSection decodeDeps0 { defaultLimits with MaxMarkdownUncompressed := 2 }
        (toLE 2 1 ++ toLE 2 0 ++ toLE 8 0 ++ toLE 4 0) :=
  ⟨c10_compnone_unbounded.1 codecImpl0 0 1 [1, 2, 3, 4, 5] (by decide),
   c10_compnone_unbounded.2.1 decodeDeps0 defaultLimits 1 2 _ (by decide)⟩

/-- C9: the only field of the document Encode changes — with or without
success — is `MediaItem.SHA256`, and only on items whose digest was zero
and only when auto-population is enabled; with auto-population disabled
the document is returned completely unchanged. -/
theorem c9_encode_frame_effect (deps : EncodeDeps) (cfg : writeConfig) (doc : Document) :
    ((Encode deps cfg doc).1.Metadata = doc.Metadata ∧
     (Encode deps cfg doc).1.Markdown = doc.Markdown ∧
     (Encode deps cfg doc).1.Media.BundleVersion = doc.Media.BundleVersion ∧
     (Encode deps cfg doc).1.Media.Items.length = doc.Media.Items.length) ∧
    (∀ i : Nat, (Encode deps cfg doc).1.Media.Items[i]? =
      (doc.Media.Items[i]?).map (fun a =>
        if cfg.autoPopulate ∧ a.SHA256 = zero32 then { a with SHA256 := deps.sha a.Data }
        else a)) ∧
    (∀ (f : List Nat → List Nat) (it : MediaItem),
      ((populateItem f it).ID = it.ID ∧ (populateItem f it).Path = it.Path ∧
        (populateItem f it).MIMEType = it.MIMEType ∧ (populateItem f it).Data = it.Data ∧
        (populateItem f it).Attributes = it.Attributes) ∧
      (it.SHA256 ≠ zero32 → (populateItem f it).SHA256 = it.SHA256) ∧
      (it.SHA256 = zero32 → (populateItem f it).SHA256 = f it.Data)) ∧
    (cfg.autoPopulate = false → (Encode deps cfg doc).1 = doc) := by
  have key : (Encode deps cfg doc).1 =
      if cfg.autoPopulate then populateSHA deps.sha doc else doc := rfl
  refine ⟨?_, ?_, ?_, ?_⟩
  · rw [key]
    by_cases h : cfg.autoPopulate <;> simp [h, populateSHA]
  · intro i
    rw [key]
    by_cases h : cfg.autoPopulate
    · simp only [h, if_true, populateSHA, List.getElem?_map]
      cases doc.Media.Items[i]? with
      | none => rfl
      | some a => simp [populateItem, h]
    · simp [h]
  · intro f it
    unfold populateItem
    by_cases h : it.SHA256 = zero32 <;> simp [h]
  · intro h
    rw [key, h]
    simp

/-- A one-item document whose media digest is unset, for the C9 witness. -/
def c9doc : Document where
  Metadata := none
  Markdown := { BundleVersion := 1, RootPath := "", Files := [] }
  Media := { BundleVersion := 1,
             Items := [{ ID := "m", Path := "", MIMEType := "", Data := [9],
                         SHA256 := zero32, Attributes := [] }] }

/-- Witness for C9 at a concrete document and configuration: the zero
digest is populated, every other field survives. -/
theorem c9_witness :
    (Encode encodeDeps0 defaultWriteConfig c9doc).1.Media.Items[0]? =
      some { ID := "m", Path := "", MIMEType := "", Data := [9],
             SHA256 := sha0 [9], Attributes := [] } := by
  have h := (c9_encode_frame_effect encodeDeps0 defaultWriteConfig c9doc).2.1 0
  rw [h]
  decide

/-!
### Validator lemmas (hash verification and auto-population)
-/

theorem populateItem_ID (f : List Nat → List Nat) (it : MediaItem) :
    (populateItem f it).ID = it.ID := by
  unfold populateItem
  split <;> rfl

theorem populateItem_Path (f : List Nat → List Nat) (it : MediaItem) :
    (populateItem f it).Path = it.Path := by
  unfold populateItem
  split <;> rfl

theorem populateItem_Data (f : List Nat → List Nat) (it : MediaItem) :
    (populateItem f it).Data = it.Data := by
  unfold populateItem
  split <;> rfl

theorem populateSHA_Metadata (g : List Nat → List Nat) (doc : Document) :
    (populateSHA g doc).Metadata = doc.Metadata := rfl

theorem populateSHA_Markdown (g : List Nat → List Nat) (doc : Document) :
    (populateSHA g doc).Markdown = doc.Markdown := rfl

theorem populateSHA_MediaVersion (g : List Nat → List Nat) (doc : Document) :
    (populateSHA g doc).Media.BundleVersion = doc.Media.BundleVersion := rfl

theorem populateSHA_items (g : List Nat → List Nat) (doc : Document) :
    (populateSHA g doc).Media.Items = doc.Media.Items.map (populateItem g) := rfl

/-- With hash verification off, the item loop never consults the hash
function. -/
theorem validateItems_false_indep (sha sha' : List Nat → List Nat) (limits : Limits)
    (items : List MediaItem) (seen : List String) (i : Nat) :
    validateItems sha limits false items seen i = validateItems sha' limits false items seen i := by
  induction items generalizing seen i with
  | nil => rfl
  | cons it rest ih =>
      unfold validateItems
      simp only [Bool.false_eq_true, false_and, if_false, ite_false]
      split_ifs <;> first | rfl | exact ih _ _

/-- With hash verification off, the item loop never reports a hash
mismatch. -/
theorem validateItems_false_ne_mismatch (sha : List Nat → List Nat) (limits : Limits)
    (items : List MediaItem) (seen : List String) (i k : Nat) :
    validateItems sha limits false items seen i ≠ .error (.shaMismatch k) := by
  induction items generalizing seen i with
  | nil => simp [validateItems]
  | cons it rest ih =>
      unfold validateItems
      simp only [Bool.false_eq_true, false_and, if_false, ite_false]
      split_ifs <;> first | exact ih _ _ | simp

/-- Auto-population changes no field the hash-off validation reads. -/
theorem validateItems_map_populate_false (sha g : List Nat → List Nat) (limits : Limits)
    (items : List MediaItem) (seen : List String) (i : Nat) :
    validateItems sha limits false (items.map (populateItem g)) seen i =
      validateItems sha limits false items seen i := by
  induction items generalizing seen i with
  | nil => rfl
  | cons it rest ih =>
      unfold validateItems
      simp only [List.map_cons, populateItem_ID, populateItem_Path, populateItem_Data,
        Bool.false_eq_true, false_and, if_false, ite_false]
      split_ifs <;> first | rfl | exact ih _ _

/-- When every stored digest is zero, the hash comparison is skipped:
the loop result does not depend on the hash function, whatever the
verification flag. -/
theorem validateItems_zero_indep (sha sha' : List Nat → List Nat) (limits : Limits)
    (v : Bool) (items : List MediaItem) (seen : List String) (i : Nat)
    (hz : ∀ it ∈ items, it.SHA256 = zero32) :
    validateItems sha limits v items seen i = validateItems sha' limits v items seen i := by
  induction items generalizing seen i with
  | nil => rfl
  | cons it rest ih =>
      have hit : it.SHA256 = zero32 := hz it (List.mem_cons_self it rest)
      have hrest : ∀ x ∈ rest, x.SHA256 = zero32 := fun x hx => hz x (List.mem_cons_of_mem it hx)
      unfold validateItems
      simp only [hit, ne_eq, not_true_eq_false, false_and, and_false, if_false, ite_false]
      split_ifs <;> first | rfl | exact ih _ _ hrest

/-- If the hash-off loop accepts the items and one of them carries a
non-zero digest different from the digest of its data, the hash-on loop
stops with a `shaMismatch`. -/
theorem validateItems_mismatch (sha : List Nat → List Nat) (limits : Limits)
    (items : List MediaItem) (seen : List String) (i : Nat)
    (hok : validateItems sha limits false items seen i = .ok ())
    (hmm : ∃ it ∈ items, it.SHA256 ≠ zero32 ∧ sha it.Data ≠ it.SHA256) :
    ∃ k, validateItems sha limits true items seen i = .error (.shaMismatch k) := by
  induction items generalizing seen i with
  | nil => simp at hmm
  | cons it rest ih =>
      unfold validateItems at hok ⊢
      by_cases h1 : isBlankString it.ID
      · rw [if_pos h1] at hok; exact absurd hok (by simp)
      · rw [if_neg h1] at hok; rw [if_neg h1]
        by_cases h2 : it.ID ∈ seen
        · rw [if_pos h2] at hok; exact absurd hok (by simp)
        · rw [if_neg h2] at hok; rw [if_neg h2]
          by_cases h3 : it.Path ≠ "" ∧ ¬ validateContainerPath it.Path
          · rw [if_pos h3] at hok; exact absurd hok (by simp)
          · rw [if_neg h3] at hok; rw [if_neg h3]
            by_cases h4 : it.Data.length > limits.MaxSingleMediaSize
            · rw [if_pos h4] at hok; exact absurd hok (by simp)
            · rw [if_neg h4] at hok; rw [if_neg h4]
              have hf5 : ¬(((false : Bool) = true) ∧ it.SHA256 ≠ zero32 ∧
                  sha it.Data ≠ it.SHA256) := by simp
              rw [if_neg hf5] at hok
              by_cases h5 : it.SHA256 ≠ zero32 ∧ sha it.Data ≠ it.SHA256
              · refine ⟨i, ?_⟩
                rw [if_pos ⟨rfl, h5⟩]
              · obtain ⟨x, hx, hxp⟩ := hmm
                rcases List.mem_cons.mp hx with hx | hx
                · subst hx; exact absurd hxp h5
                · have ht5 : ¬(((true : Bool) = true) ∧ it.SHA256 ≠ zero32 ∧
                      sha it.Data ≠ it.SHA256) := by
                    intro h; exact h5 h.2
                  rw [if_neg ht5]
                  exact ih (it.ID :: seen) (i + 1) hok ⟨x, hx, hxp⟩

/-- If the hash-on loop accepts the items, it also accepts them after
auto-population with the same hash function. -/
theorem validateItems_populate_ok (sha : List Nat → List Nat) (limits : Limits)
    (items : List MediaItem) (seen : List String) (i : Nat)
    (hok : validateItems sha limits true items seen i = .ok ()) :
    validateItems sha limits true (items.map (populateItem sha)) seen i = .ok () := by
  induction items generalizing seen i with
  | nil => rfl
  | cons it rest ih =>
      unfold validateItems at hok ⊢
      simp only [List.map_cons, populateItem_ID, populateItem_Path, populateItem_Data]
      by_cases h1 : isBlankString it.ID
      · rw [if_pos h1] at hok; exact absurd hok (by simp)
      · rw [if_neg h1] at hok; rw [if_neg h1]
        by_cases h2 : it.ID ∈ seen
        · rw [if_pos h2] at hok; exact absurd hok (by simp)
        · rw [if_neg h2] at hok; rw [if_neg h2]
          by_cases h3 : it.Path ≠ "" ∧ ¬ validateContainerPath it.Path
          · rw [if_pos h3] at hok; exact absurd hok (by simp)
          · rw [if_neg h3] at hok; rw [if_neg h3]
            by_cases h4 : it.Data.length > limits.MaxSingleMediaSize
            · rw [if_pos h4] at hok; exact absurd hok (by simp)
            · rw [if_neg h4] at hok; rw [if_neg h4]
              simp only [eq_self_iff_true, true_and] at hok ⊢
              by_cases h5 : it.SHA256 ≠ zero32 ∧ sha it.Data ≠ it.SHA256
              · rw [if_pos h5] at hok; exact absurd hok (by simp)
              · rw [if_neg h5] at hok
                have h6 : ¬((populateItem sha it).SHA256 ≠ zero32 ∧
                    sha it.Data ≠ (populateItem sha it).SHA256) := by
                  intro h
                  apply h5
                  unfold populateItem at h
                  by_cases hz : it.SHA256 = zero32
                  · simp [hz] at h
                  · simp only [hz, if_false, ite_false] at h
                    exact ⟨hz, h.2⟩
                rw [if_neg h6]
                exact ih (it.ID :: seen) (i + 1) hok

/-- The Markdown file loop can only fail for path/duplicate/UTF-8/size
reasons, never with a hash mismatch. -/
theorem validateFiles_ne_mismatch (limits : Limits) (files : List MarkdownFile)
    (seen : List String) (i k : Nat) :
    validateFiles limits files seen i ≠ .error (.shaMismatch k) := by
  induction files generalizing seen i with
  | nil => simp [validateFiles]
  | cons f rest ih =>
      unfold validateFiles
      split_ifs <;> first | exact ih _ _ | simp

/-- With hash verification off, `validateDocument` never consults the
hash function. -/
theorem validateDocument_false_indep (sha sha' : List Nat → List Nat) (doc : Document)
    (limits : Limits) :
    validateDocument sha doc limits false = validateDocument sha' doc limits false := by
  unfold validateDocument
  cases hf : validateFiles limits doc.Markdown.Files [] 0 with
  | error e => simp only [hf]
  | ok u =>
      simp only [hf]
      split_ifs <;>
        first
        | rfl
        | exact validateItems_false_indep sha sha' limits doc.Media.Items [] 0

/-- With hash verification off, `validateDocument` never reports a hash
mismatch. -/
theorem validateDocument_false_ne_mismatch (sha : List Nat → List Nat) (doc : Document)
    (limits : Limits) (k : Nat) :
    validateDocument sha doc limits false ≠ .error (.shaMismatch k) := by
  unfold validateDocument
  cases hf : validateFiles limits doc.Markdown.Files [] 0 with
  | error e =>
      simp only [hf]
      split_ifs <;>
        first
        | (intro h
           injection h with he
           subst he
           exact validateFiles_ne_mismatch limits doc.Markdown.Files [] 0 k hf)
        | simp
  | ok u =>
      simp only [hf]
      split_ifs <;>
        first
        | exact validateItems_false_ne_mismatch sha limits doc.Media.Items [] 0 k
        | simp

/-- When every stored digest is zero, `validateDocument` does not depend
on the hash function at all. -/
theorem validateDocument_zero_indep (sha sha' : List Nat → List Nat) (doc : Document)
    (limits : Limits) (v : Bool) (hz : ∀ it ∈ doc.Media.Items, it.SHA256 = zero32) :
    validateDocument sha doc limits v = validateDocument sha' doc limits v := by
  unfold validateDocument
  cases hf : validateFiles limits doc.Markdown.Files [] 0 with
  | error e => simp only [hf]
  | ok u =>
      simp only [hf]
      split_ifs <;>
        first
        | rfl
        | exact validateItems_zero_indep sha sha' limits v doc.Media.Items [] 0 hz

/-- Auto-population does not change the hash-off verdict. -/
theorem validateDocument_populate_false (sha g : List Nat → List Nat) (doc : Document)
    (limits : Limits) :
    validateDocument sha (populateSHA g doc) limits false =
      validateDocument sha doc limits false := by
  unfold validateDocument
  simp only [populateSHA_Markdown, populateSHA_MediaVersion, populateSHA_items,
    List.length_map]
  cases hf : validateFiles limits doc.Markdown.Files [] 0 with
  | error e => simp only [hf]
  | ok u =>
      simp only [hf]
      split_ifs <;>
        first
        | rfl
        | exact validateItems_map_populate_false sha g limits doc.Media.Items [] 0

/-- A document the hash-on validator accepts is still accepted after
auto-population. -/
theorem validateDocument_populate_ok (sha : List Nat → List Nat) (doc : Document)
    (limits : Limits) (hok : validateDocument sha doc limits true = .ok ()) :
    validateDocument sha (populateSHA sha doc) limits true = .ok () := by
  unfold validateDocument at hok ⊢
  simp only [populateSHA_Markdown, populateSHA_MediaVersion, populateSHA_items,
    List.length_map]
  cases hf : validateFiles limits doc.Markdown.Files [] 0 with
  | error e =>
      simp only [hf] at hok
      split_ifs at hok <;> exact absurd hok (by simp)
  | ok u =>
      simp only [hf] at hok ⊢
      split_ifs at hok ⊢ <;>
        first
        | exact hok
        | exact absurd hok (by simp)
        | exact validateItems_populate_ok sha limits doc.Media.Items [] 0 hok

/-- If the hash-off validator accepts the document and some item carries
a wrong non-zero digest, the hash-on validator fails with a mismatch. -/
theorem validateDocument_mismatch (sha : List Nat → List Nat) (doc : Document)
    (limits : Limits)
    (hok : validateDocument sha doc limits false = .ok ())
    (hmm : ∃ it ∈ doc.Media.Items, it.SHA256 ≠ zero32 ∧ sha it.Data ≠ it.SHA256) :
    ∃ k, validateDocument sha doc limits true = .error (.shaMismatch k) := by
  unfold validateDocument at hok ⊢
  cases hf : validateFiles limits doc.Markdown.Files [] 0 with
  | error e =>
      simp only [hf] at hok
      split_ifs at hok <;> exact absurd hok (by simp)
  | ok u =>
      simp only [hf] at hok ⊢
      split_ifs at hok ⊢ <;>
        first
        | exact absurd hok (by simp)
        | exact validateItems_mismatch sha limits doc.Media.Items [] 0 hok hmm

/-- When validation fails, `Encode` stops with the wrapped error and the
output stream still empty (validation runs before the first write). -/
theorem Encode_validate_error (deps : EncodeDeps) (cfg : writeConfig) (doc : Document)
    (e : VErr)
    (h : validateDocument deps.sha (if cfg.autoPopulate then populateSHA deps.sha doc else doc)
      cfg.limits.withDefaults cfg.verifyHashes = .error e) :
    (Encode deps cfg doc).2 = .error e.kind := by
  unfold Encode
  simp only [h]

/-- `Decode` consults the digest function only through the final
validation, which ignores it when `verifyHashes` is off: two decode
dependency records differing only in `sha` decode every input
identically under `verifyHashes := false`. -/
theorem Decode_false_sha_indep (c : CodecImpl)
    (j : List Nat → Except MdocxError (Option (List (String × Json))))
    (gm : List Nat → Except MdocxError MarkdownBundle)
    (ge : List Nat → Except MdocxError MediaBundle)
    (s1 s2 : List Nat → List Nat) (limits : Limits) (input : List Nat) :
    Decode ⟨c, j, gm, ge, s1⟩ { limits := limits, verifyHashes := false } input =
      Decode ⟨c, j, gm, ge, s2⟩ { limits := limits, verifyHashes := false } input := by
  have h1 : decodeFixedAndMetadata ⟨c, j, gm, ge, s1⟩ =
      decodeFixedAndMetadata ⟨c, j, gm, ge, s2⟩ := rfl
  have h2 : decodeMarkdownSection ⟨c, j, gm, ge, s1⟩ =
      decodeMarkdownSection ⟨c, j, gm, ge, s2⟩ := rfl
  have h3 : decodeMediaSection ⟨c, j, gm, ge, s1⟩ =
      decodeMediaSection ⟨c, j, gm, ge, s2⟩ := rfl
  unfold Decode
  rw [h1, h2, h3]
  simp only [show (⟨c, j, gm, ge, s1⟩ : DecodeDeps).sha = s1 from rfl,
    show (⟨c, j, gm, ge, s2⟩ : DecodeDeps).sha = s2 from rfl,
    show ({ limits := limits, verifyHashes := false } : readConfig).verifyHashes = false from rfl,
    validateDocument_false_indep s1 s2]

/-- C6 (amended): under default write options, a document carrying a
media item whose non-zero stored digest differs from the digest of its
data, and which passes every other (hash-off) validation check, makes
`Encode` fail with `ValidationFailed` before anything is written;
hash-off validation never consults the hash function and never reports a
mismatch; decoding with hash verification off likewise never consults
the hash function (the decode result is independent of it); items whose
stored digest is zero are never checked. -/
theorem c6_hash_verification :
    (∀ (deps : EncodeDeps) (doc : Document),
      (∃ it ∈ doc.Media.Items, it.SHA256 ≠ zero32 ∧ deps.sha it.Data ≠ it.SHA256) →
      validateDocument deps.sha doc defaultLimits false = .ok () →
      (Encode deps defaultWriteConfig doc).2 = .error .validation) ∧
    (∀ (sha sha' : List Nat → List Nat) (doc : Document) (limits : Limits),
      validateDocument sha doc limits false = validateDocument sha' doc limits false) ∧
    (∀ (sha : List Nat → List Nat) (doc : Document) (limits : Limits) (k : Nat),
      validateDocument sha doc limits false ≠ .error (.shaMismatch k)) ∧
    (∀ (c : CodecImpl) (j : List Nat → Except MdocxError (Option (List (String × Json))))
      (gm : List Nat → Except MdocxError MarkdownBundle)
      (ge : List Nat → Except MdocxError MediaBundle)
      (s1 s2 : List Nat → List Nat) (limits : Limits) (input : List Nat),
      Decode ⟨c, j, gm, ge, s1⟩ { limits := limits, verifyHashes := false } input =
        Decode ⟨c, j, gm, ge, s2⟩ { limits := limits, verifyHashes := false } input) ∧
    (∀ (sha sha' : List Nat → List Nat) (doc : Document) (limits : Limits) (v : Bool),
      (∀ it ∈ doc.Media.Items, it.SHA256 = zero32) →
      validateDocument sha doc limits v = validateDocument sha' doc limits v) := by
  refine ⟨?_, validateDocument_false_indep, validateDocument_false_ne_mismatch,
    Decode_false_sha_indep, validateDocument_zero_indep⟩
  intro deps doc hmm hok
  have hpf : validateDocument deps.sha (populateSHA deps.sha doc) defaultLimits false = .ok () := by
    rw [validateDocument_populate_false]
    exact hok
  have hmm' : ∃ it ∈ (populateSHA deps.sha doc).Media.Items,
      it.SHA256 ≠ zero32 ∧ deps.sha it.Data ≠ it.SHA256 := by
    obtain ⟨it, hin, hnz, hne⟩ := hmm
    refine ⟨it, ?_, hnz, hne⟩
    rw [populateSHA_items]
    exact List.mem_map.mpr ⟨it, hin, by simp [populateItem, hnz]⟩
  obtain ⟨k, hk⟩ := validateDocument_mismatch deps.sha (populateSHA deps.sha doc)
    defaultLimits hpf hmm'
  have h : validateDocument deps.sha
      (if defaultWriteConfig.autoPopulate then populateSHA deps.sha doc else doc)
      defaultWriteConfig.limits.withDefaults defaultWriteConfig.verifyHashes =
      .error (.shaMismatch k) := by
    show validateDocument deps.sha (populateSHA deps.sha doc) defaultLimits.withDefaults true =
      .error (.shaMismatch k)
    rw [defaultLimits_withDefaults]
    exact hk
  exact Encode_validate_error deps defaultWriteConfig doc (.shaMismatch k) h

/-- A media item whose stored digest is non-zero and wrong under `sha0`. -/
def c6item : MediaItem where
  ID := "m1"
  Path := ""
  MIMEType := ""
  Data := []
  SHA256 := List.replicate 32 2
  Attributes := []

/-- A markdown file used to overfill the file-count ceiling. -/
def c6file : MarkdownFile where
  Path := "x"
  Content := []
  MediaRefs := []
  Attributes := []

/-- A document with a mismatched media digest *and* 10001 markdown files
(one more than the default `MaxMarkdownFiles`). -/
def c6cxdoc : Document where
  Metadata := none
  Markdown := { BundleVersion := 1, RootPath := "", Files := List.replicate 10001 c6file }
  Media := { BundleVersion := 1, Items := [c6item] }

/-- Counterexample to C6 as stated: this document contains a media item
whose non-zero SHA256 differs from the digest of its data, yet `Encode`
under default options fails with `LimitExceeded` (the file-count check
fires before the hash check), not `ValidationFailed`. -/
theorem c6_counterexample :
    (c6item ∈ c6cxdoc.Media.Items ∧ c6item.SHA256 ≠ zero32 ∧
      encodeDeps0.sha c6item.Data ≠ c6item.SHA256) ∧
    (Encode encodeDeps0 defaultWriteConfig c6cxdoc).2 = .error .limitExceeded ∧
    MdocxError.limitExceeded ≠ MdocxError.validation := by
  refine ⟨⟨by exact List.mem_cons_self c6item [], by decide, by decide⟩, ?_, by decide⟩
  have hlen : (populateSHA encodeDeps0.sha c6cxdoc).Markdown.Files.length = 10001 := by
    rw [populateSHA_Markdown,
      show c6cxdoc.Markdown.Files = List.replicate 10001 c6file from rfl,
      List.length_replicate]
  have h : validateDocument encodeDeps0.sha
      (if defaultWriteConfig.autoPopulate then populateSHA encodeDeps0.sha c6cxdoc else c6cxdoc)
      defaultWriteConfig.limits.withDefaults defaultWriteConfig.verifyHashes =
      .error .tooManyFiles := by
    show validateDocument encodeDeps0.sha (populateSHA encodeDeps0.sha c6cxdoc)
      defaultLimits.withDefaults true = .error .tooManyFiles
    rw [defaultLimits_withDefaults]
    unfold validateDocument
    have hver : (populateSHA encodeDeps0.sha c6cxdoc).Markdown.BundleVersion = 1 := rfl
    have hne : (populateSHA encodeDeps0.sha c6cxdoc).Markdown.Files.isEmpty = false := by
      cases hF : (populateSHA encodeDeps0.sha c6cxdoc).Markdown.Files with
      | nil => rw [hF] at hlen; simp at hlen
      | cons a l => rfl
    rw [if_neg (by rw [hver]; decide), if_neg (by rw [hne]; simp),
      if_pos (by rw [hlen]; decide)]
  have := Encode_validate_error encodeDeps0 defaultWriteConfig c6cxdoc .tooManyFiles h
  simpa using this

/-- A document whose only validation problem is the mismatched digest. -/
def c6wdoc : Document where
  Metadata := none
  Markdown := { BundleVersion := 1, RootPath := "",
                Files := [{ Path := "a.md", Content := [35], MediaRefs := [],
                            Attributes := [] }] }
  Media := { BundleVersion := 1, Items := [c6item] }

/-- Witness for the amended C6 at a concrete document: the mismatch is
the first violated check, so the error kind is `ValidationFailed`. -/
theorem c6_witness :
    (Encode encodeDeps0 defaultWriteConfig c6wdoc).2 = .error .validation :=
  c6_hash_verification.1 encodeDeps0 c6wdoc
    ⟨c6item, by simp [c6wdoc], by decide, by decide⟩ (by decide)

/-!
### Wire-format roundtrip lemmas
-/

theorem readFull_prefix (a b : List Nat) (n : Nat) (h : a.length = n) :
    readFull (a ++ b) n = .ok (a, b) := by
  unfold readFull
  rw [if_neg (by rw [List.length_append, h]; omega), List.take_left' h, List.drop_left' h]

theorem serializeFixedHeader_length (h : fixedHeaderV1) (hm : h.Magic.length = 8) :
    (serializeFixedHeader h).length = 32 := by
  unfold serializeFixedHeader
  simp [List.length_append, toLE_length, List.length_take, hm]

theorem serializeSectionHeader_length (sh : sectionHeaderV1) :
    (serializeSectionHeader sh).length = 16 := by
  unfold serializeSectionHeader
  simp [List.length_append, toLE_length]

theorem parse_serialize_fixedHeader (h : fixedHeaderV1)
    (hm : h.Magic.length = 8) (h1 : h.Version < 256 ^ 2) (h2 : h.HeaderFlags < 256 ^ 2)
    (h3 : h.FixedHdrSize < 256 ^ 4) (h4 : h.MetadataLength < 256 ^ 4)
    (h5 : h.Reserved0 < 256 ^ 4) (h6 : h.Reserved1 < 256 ^ 8) :
    parseFixedHeader (serializeFixedHeader h) = h := by
  obtain ⟨m, v, f, sz, l, r0, r1⟩ := h
  simp only at hm h1 h2 h3 h4 h5 h6
  have hA : m.take 8 = m := by rw [← hm]; exact List.take_length m
  have e0 : serializeFixedHeader ⟨m, v, f, sz, l, r0, r1⟩ =
      m ++ (toLE 2 v ++ (toLE 2 f ++ (toLE 4 sz ++ (toLE 4 l ++ (toLE 4 r0 ++ toLE 8 r1))))) := by
    unfold serializeFixedHeader
    simp only [hA, List.append_assoc]
  have d8 : (serializeFixedHeader ⟨m, v, f, sz, l, r0, r1⟩).drop 8 =
      toLE 2 v ++ (toLE 2 f ++ (toLE 4 sz ++ (toLE 4 l ++ (toLE 4 r0 ++ toLE 8 r1)))) := by
    rw [e0]; exact List.drop_left' hm
  have d10 : (serializeFixedHeader ⟨m, v, f, sz, l, r0, r1⟩).drop 10 =
      toLE 2 f ++ (toLE 4 sz ++ (toLE 4 l ++ (toLE 4 r0 ++ toLE 8 r1))) := by
    rw [show (10 : Nat) = 8 + 2 from rfl, ← List.drop_drop, d8]
    exact List.drop_left' (toLE_length 2 v)
  have d12 : (serializeFixedHeader ⟨m, v, f, sz, l, r0, r1⟩).drop 12 =
      toLE 4 sz ++ (toLE 4 l ++ (toLE 4 r0 ++ toLE 8 r1)) := by
    rw [show (12 : Nat) = 10 + 2 from rfl, ← List.drop_drop, d10]
    exact List.drop_left' (toLE_length 2 f)
  have d16 : (serializeFixedHeader ⟨m, v, f, sz, l, r0, r1⟩).drop 16 =
      toLE 4 l ++ (toLE 4 r0 ++ toLE 8 r1) := by
    rw [show (16 : Nat) = 12 + 4 from rfl, ← List.drop_drop, d12]
    exact List.drop_left' (toLE_length 4 sz)
  have d20 : (serializeFixedHeader ⟨m, v, f, sz, l, r0, r1⟩).drop 20 =
      toLE 4 r0 ++ toLE 8 r1 := by
    rw [show (20 : Nat) = 16 + 4 from rfl, ← List.drop_drop, d16]
    exact List.drop_left' (toLE_length 4 l)
  have d24 : (serializeFixedHeader ⟨m, v, f, sz, l, r0, r1⟩).drop 24 = toLE 8 r1 := by
    rw [show (24 : Nat) = 20 + 4 from rfl, ← List.drop_drop, d20]
    exact List.drop_left' (toLE_length 4 r0)
  unfold parseFixedHeader
  simp only [fixedHeaderV1.mk.injEq]
  refine ⟨?_, ?_, ?_, ?_, ?_, ?_, ?_⟩
  · rw [e0, List.take_left' hm]
  · rw [d8, List.take_left' (toLE_length 2 v)]
    exact fromLE_toLE 2 v h1
  · rw [d10, List.take_left' (toLE_length 2 f)]
    exact fromLE_toLE 2 f h2
  · rw [d12, List.take_left' (toLE_length 4 sz)]
    exact fromLE_toLE 4 sz h3
  · rw [d16, List.take_left' (toLE_length 4 l)]
    exact fromLE_toLE 4 l h4
  · rw [d20, List.take_left' (toLE_length 4 r0)]
    exact fromLE_toLE 4 r0 h5
  · rw [d24, List.take_of_length_le (by rw [toLE_length])]
    exact fromLE_toLE 8 r1 h6

theorem parse_serialize_sectionHeader (sh : sectionHeaderV1)
    (h1 : sh.SectionType < 256 ^ 2) (h2 : sh.SectionFlags < 256 ^ 2)
    (h3 : sh.PayloadLen < 256 ^ 8) (h4 : sh.Reserved < 256 ^ 4) :
    parseSectionHeader (serializeSectionHeader sh) = sh := by
  obtain ⟨t, f, p, r⟩ := sh
  simp only at h1 h2 h3 h4
  have e0 : serializeSectionHeader ⟨t, f, p, r⟩ =
      toLE 2 t ++ (toLE 2 f ++ (toLE 8 p ++ toLE 4 r)) := by
    unfold serializeSectionHeader
    simp only [List.append_assoc]
  have d2 : (serializeSectionHeader ⟨t, f, p, r⟩).drop 2 =
      toLE 2 f ++ (toLE 8 p ++ toLE 4 r) := by
    rw [e0]; exact List.drop_left' (toLE_length 2 t)
  have d4 : (serializeSectionHeader ⟨t, f, p, r⟩).drop 4 = toLE 8 p ++ toLE 4 r := by
    rw [show (4 : Nat) = 2 + 2 from rfl, ← List.drop_drop, d2]
    exact List.drop_left' (toLE_length 2 f)
  have d12 : (serializeSectionHeader ⟨t, f, p, r⟩).drop 12 = toLE 4 r := by
    rw [show (12 : Nat) = 4 + 8 from rfl, ← List.drop_drop, d4]
    exact List.drop_left' (toLE_length 8 p)
  unfold parseSectionHeader
  simp only [sectionHeaderV1.mk.injEq]
  refine ⟨?_, ?_, ?_, ?_⟩
  · rw [e0, List.take_left' (toLE_length 2 t)]
    exact fromLE_toLE 2 t h1
  · rw [d2, List.take_left' (toLE_length 2 f)]
    exact fromLE_toLE 2 f h2
  · rw [d4, List.take_left' (toLE_length 8 p)]
    exact fromLE_toLE 8 p h3
  · rw [d12, List.take_of_length_le (by rw [toLE_length])]
    exact fromLE_toLE 4 r h4

/-- Decoding a well-formed fixed header that declares no metadata. -/
theorem decodeFixedAndMetadata_none (deps : DecodeDeps) (limits : Limits) (hf : Nat)
    (rest : List Nat) (hhf : hf < 256 ^ 2) :
    decodeFixedAndMetadata deps limits (serializeFixedHeader
      { Magic := Magic, Version := VersionV1, HeaderFlags := hf,
        FixedHdrSize := fixedHeaderSizeV1, MetadataLength := 0,
        Reserved0 := 0, Reserved1 := 0 } ++ rest) = .ok (none, rest) := by
  have hm : (Magic : List Nat).length = 8 := by decide
  have hlen := serializeFixedHeader_length
    { Magic := Magic, Version := VersionV1, HeaderFlags := hf,
      FixedHdrSize := fixedHeaderSizeV1, MetadataLength := 0,
      Reserved0 := 0, Reserved1 := 0 } hm
  have hparse := parse_serialize_fixedHeader
    { Magic := Magic, Version := VersionV1, HeaderFlags := hf,
      FixedHdrSize := fixedHeaderSizeV1, MetadataLength := 0,
      Reserved0 := 0, Reserved1 := 0 } hm (show VersionV1 < 256 ^ 2 by decide) hhf
    (show fixedHeaderSizeV1 < 256 ^ 4 by decide) (show (0 : Nat) < 256 ^ 4 by decide)
    (show (0 : Nat) < 256 ^ 4 by decide) (show (0 : Nat) < 256 ^ 8 by decide)
  have hr := readFull_prefix (serializeFixedHeader
    { Magic := Magic, Version := VersionV1, HeaderFlags := hf,
      FixedHdrSize := fixedHeaderSizeV1, MetadataLength := 0,
      Reserved0 := 0, Reserved1 := 0 }) rest 32 hlen
  unfold decodeFixedAndMetadata
  simp only [hr, hparse]
  simp [fixedHeaderSizeV1, VersionV1]

/-- Decoding a well-formed fixed header followed by a non-empty metadata
block: the result is decided by `jsonUnmarshal` exactly as in the source
(error verbatim; JSON `null` rejected as `InvalidHeader`). -/
theorem decodeFixedAndMetadata_some (deps : DecodeDeps) (limits : Limits)
    (mb rest : List Nat)
    (hnz : 0 < mb.length) (hlim : mb.length ≤ limits.MaxMetadataLen)
    (hfit : mb.length < 256 ^ 4) :
    decodeFixedAndMetadata deps limits (serializeFixedHeader
      { Magic := Magic, Version := VersionV1, HeaderFlags := HeaderFlagMetadataJSON,
        FixedHdrSize := fixedHeaderSizeV1, MetadataLength := mb.length,
        Reserved0 := 0, Reserved1 := 0 } ++ (mb ++ rest)) =
      (match deps.jsonUnmarshal mb with
       | .error e => .error e
       | .ok none => .error .invalidHeader
       | .ok (some m) => .ok (some m, rest)) := by
  have hm : (Magic : List Nat).length = 8 := by decide
  have hlen := serializeFixedHeader_length
    { Magic := Magic, Version := VersionV1, HeaderFlags := HeaderFlagMetadataJSON,
      FixedHdrSize := fixedHeaderSizeV1, MetadataLength := mb.length,
      Reserved0 := 0, Reserved1 := 0 } hm
  have hparse := parse_serialize_fixedHeader
    { Magic := Magic, Version := VersionV1, HeaderFlags := HeaderFlagMetadataJSON,
      FixedHdrSize := fixedHeaderSizeV1, MetadataLength := mb.length,
      Reserved0 := 0, Reserved1 := 0 } hm (show VersionV1 < 256 ^ 2 by decide)
    (show HeaderFlagMetadataJSON < 256 ^ 2 by decide)
    (show fixedHeaderSizeV1 < 256 ^ 4 by decide) hfit
    (show (0 : Nat) < 256 ^ 4 by decide) (show (0 : Nat) < 256 ^ 8 by decide)
  have hr := readFull_prefix (serializeFixedHeader
    { Magic := Magic, Version := VersionV1, HeaderFlags := HeaderFlagMetadataJSON,
      FixedHdrSize := fixedHeaderSizeV1, MetadataLength := mb.length,
      Reserved0 := 0, Reserved1 := 0 }) (mb ++ rest) 32 hlen
  have hr2 := readFull_prefix mb rest mb.length rfl
  unfold decodeFixedAndMetadata
  simp only [hr, hparse]
  simp [fixedHeaderSizeV1, VersionV1, HeaderFlagMetadataJSON, hnz, Nat.not_lt.mpr hlim, hr2]

/-- C7 (amended): with a well-formed header and a positive metadata
length, a metadata block that `json.Unmarshal` reads as JSON `null`
makes `Decode` fail with `InvalidHeader`; a block on which
`json.Unmarshal` itself errors (every successfully-parsed non-object
JSON value other than `null` does) makes `Decode` return that error
verbatim, which is not `InvalidHeader`. -/
theorem c7_metadata_object_gate (deps : DecodeDeps) (cfg : readConfig)
    (mb rest : List Nat)
    (hnz : 0 < mb.length)
    (hlim : mb.length ≤ (cfg.limits.withDefaults).MaxMetadataLen)
    (hfit : mb.length < 256 ^ 4) :
    (deps.jsonUnmarshal mb = .ok none →
      Decode deps cfg (serializeFixedHeader
        { Magic := Magic, Version := VersionV1, HeaderFlags := HeaderFlagMetadataJSON,
          FixedHdrSize := fixedHeaderSizeV1, MetadataLength := mb.length,
          Reserved0 := 0, Reserved1 := 0 } ++ (mb ++ rest)) = .error .invalidHeader) ∧
    (∀ e, deps.jsonUnmarshal mb = .error e →
      Decode deps cfg (serializeFixedHeader
        { Magic := Magic, Version := VersionV1, HeaderFlags := HeaderFlagMetadataJSON,
          FixedHdrSize := fixedHeaderSizeV1, MetadataLength := mb.length,
          Reserved0 := 0, Reserved1 := 0 } ++ (mb ++ rest)) = .error e) := by
  have hs := decodeFixedAndMetadata_some deps cfg.limits.withDefaults mb rest hnz hlim hfit
  constructor
  · intro hj
    unfold Decode
    simp only [hs, hj]
  · intro e hj
    unfold Decode
    simp only [hs, hj]

/-- Modelled from the spec: the behavior of Go `json.Unmarshal(mb, &m)`
for `m : map[string]any` (the standard library is outside `src/`).
Per its documentation: the input `null` succeeds and leaves the map nil
(`.ok none`); a JSON object succeeds with the map filled (modelled here
only for the empty object, the sole object input these developments
use); every other top-level value — array, string, number, boolean —
and every malformed input fails with a json error that `decode.go`
returns verbatim (`.error .jsonErr`). -/
def jsonUnmarshalModel (bs : List Nat) : Except MdocxError (Option (List (String × Json))) :=
  let t := bs.dropWhile (fun b => b = 32 ∨ b = 9 ∨ b = 10 ∨ b = 13)
  if t = [110, 117, 108, 108] then .ok none
  else if t = [123, 125] then .ok (some [])
  else .error .jsonErr

/-- Decode dependencies carrying the modelled `json.Unmarshal`. -/
def decodeDepsJ : DecodeDeps where
  codec := codecImpl0
  jsonUnmarshal := jsonUnmarshalModel
  gobDecodeMarkdown := fun _ => .error .gobErr
  gobDecodeMedia := fun _ => .error .gobErr
  sha := sha0

/-- A well-formed header declaring 3 metadata bytes, followed by the
JSON array `[1]`. -/
def c7input : List Nat :=
  serializeFixedHeader
    { Magic := Magic, Version := VersionV1, HeaderFlags := HeaderFlagMetadataJSON,
      FixedHdrSize := fixedHeaderSizeV1, MetadataLength := 3,
      Reserved0 := 0, Reserved1 := 0 } ++ [91, 49, 93]

/-- Counterexample to C7 as stated: metadata `[1]` parses as JSON (an
array, not an object), yet `Decode` fails with the json error returned
verbatim — not with `InvalidHeader`. -/
theorem c7_counterexample :
    jsonUnmarshalModel [91, 49, 93] = .error .jsonErr ∧
    Decode decodeDepsJ defaultReadConfig c7input = .error .jsonErr ∧
    MdocxError.jsonErr ≠ MdocxError.invalidHeader := by
  refine ⟨rfl, ?_, by decide⟩
  rfl

/-- Witness for the amended C7: metadata `null` parses successfully and
is rejected as `InvalidHeader`. -/
theorem c7_witness :
    Decode decodeDepsJ defaultReadConfig (serializeFixedHeader
      { Magic := Magic, Version := VersionV1, HeaderFlags := HeaderFlagMetadataJSON,
        FixedHdrSize := fixedHeaderSizeV1,
        MetadataLength := ([110, 117, 108, 108] : List Nat).length,
        Reserved0 := 0, Reserved1 := 0 } ++ ([110, 117, 108, 108] ++ [])) =
      .error .invalidHeader :=
  (c7_metadata_object_gate decodeDepsJ defaultReadConfig [110, 117, 108, 108] []
    (by decide) (by decide) (by decide)).1 rfl

/-!
### Compression envelope roundtrip (for the encode/decode roundtrip)
-/

/-- The contract the external compression libraries satisfy at the bytes
being round-tripped (spec §4.2/§4.3): the compressor succeeds and the
matching decompressor, given the declared length as its bound, returns
the original bytes; the framed payload fits the stored-section ceiling.
For `CompNone` there is no external library — only the size condition
remains. -/
def ExtCodecOK (ci cd : CodecImpl) (comp : Nat) (bytes : List Nat) (maxStored : Nat) : Prop :=
  if comp = CompNone then bytes.length ≤ maxStored
  else ∃ fe fd cb, ci.compressFn comp = some fe ∧ cd.decompressFn comp = some fd ∧
    fe bytes = .ok cb ∧ fd cb bytes.length = .ok bytes ∧ 8 + cb.length ≤ maxStored

/-- `compressPayload` followed by `decompressPayload` restores the
plaintext, with the produced flags and framed payload satisfying the
wire invariants. -/
theorem compressPayload_spec (ci cd : CodecImpl) (comp : Nat) (bytes : List Nat)
    (maxStored maxU : Nat)
    (hcomp : comp ≤ 4) (hfit : comp ≠ CompNone → bytes.length ≤ maxU)
    (hlen64 : comp ≠ CompNone → bytes.length < 256 ^ 8)
    (hext : ExtCodecOK ci cd comp bytes maxStored) :
    ∃ flags payload,
      compressPayload ci comp bytes = .ok (flags, payload) ∧
      flags &&& sectionFlagCompressionMask = comp ∧
      flags < 256 ^ 2 ∧
      payload.length ≤ maxStored ∧
      (comp = CompNone → payload = bytes) ∧
      (comp ≠ CompNone → 8 ≤ payload.length) ∧
      (flags &&& sectionFlagHasUncompressedLen ≠ 0 ↔ comp ≠ CompNone) ∧
      decompressPayload cd comp flags payload maxU = .ok bytes := by
  by_cases h0 : comp = CompNone
  · subst h0
    unfold ExtCodecOK at hext
    rw [if_pos rfl] at hext
    refine ⟨CompNone, bytes, ?_, by decide, by decide, hext, fun _ => rfl,
      fun h => absurd rfl h, by decide, ?_⟩
    · unfold compressPayload
      rw [if_pos rfl]
    · unfold decompressPayload
      simp
      decide
  · unfold ExtCodecOK at hext
    rw [if_neg h0] at hext
    obtain ⟨fe, fd, cb, hfe, hfd, hok1, hok2, hsz⟩ := hext
    have hfit' := hfit h0
    have hlen64' := hlen64 h0
    have hflags : ((comp ||| sectionFlagHasUncompressedLen) &&& sectionFlagCompressionMask = comp) ∧
        (comp ||| sectionFlagHasUncompressedLen) < 256 ^ 2 ∧
        ((comp ||| sectionFlagHasUncompressedLen) &&& sectionFlagHasUncompressedLen ≠ 0) := by
      unfold sectionFlagCompressionMask sectionFlagHasUncompressedLen
      interval_cases comp <;> simp_all <;> decide
    refine ⟨comp ||| sectionFlagHasUncompressedLen, toLE 8 bytes.length ++ cb, ?_,
      hflags.1, hflags.2.1, ?_, fun h => absurd h h0, ?_, ?_, ?_⟩
    · unfold compressPayload
      rw [if_neg h0]
      simp only [hfe, hok1]
    · rw [List.length_append, toLE_length]
      exact hsz
    · intro _
      rw [List.length_append, toLE_length]
      omega
    · exact ⟨fun _ => h0, fun _ => hflags.2.2⟩
    · unfold decompressPayload
      rw [if_neg h0, if_neg (by simpa using hflags.2.2)]
      rw [if_neg (by rw [List.length_append, toLE_length]; omega)]
      rw [List.take_left' (toLE_length 8 bytes.length), fromLE_toLE 8 bytes.length hlen64',
        if_neg (by omega), List.drop_left' (toLE_length 8 bytes.length)]
      simp only [hfd, hok2]
      rw [if_neg (by simp)]

/-- A section header assembled by `Encode` (reserved 0, matching type,
well-formed flags) passes `validateSectionHeader`. -/
theorem validateSectionHeader_ok (t flags plen : Nat)
    (hc : flags &&& sectionFlagCompressionMask ≤ 4)
    (hb : flags &&& sectionFlagHasUncompressedLen ≠ 0 ↔
      flags &&& sectionFlagCompressionMask ≠ CompNone) :
    validateSectionHeader
      { SectionType := t, SectionFlags := flags, PayloadLen := plen, Reserved := 0 } t =
      .ok () := by
  unfold validateSectionHeader sectionHeaderV1.compression sectionHeaderV1.hasUncompressedLen
  rw [if_neg (by simp), if_neg (by simp)]
  simp only
  rw [if_pos (by unfold CompNone CompZIP CompZSTD CompLZ4 CompBR; omega)]
  by_cases hz : flags &&& sectionFlagCompressionMask = CompNone
  · rw [if_pos hz, if_neg ?_]
    have := (not_iff_not.mpr hb).mpr (by simpa using hz)
    simpa using this
  · rw [if_neg hz, if_neg ?_]
    have := hb.mpr hz
    simpa using this

/-- Decoding one encoded Markdown section. -/
theorem decodeMarkdownSection_encoded (deps : DecodeDeps) (limits : Limits)
    (flags : Nat) (payload rest bytes : List Nat) (md : MarkdownBundle)
    (hflags : flags < 256 ^ 2)
    (hfit : payload.length ≤ limits.MaxMarkdownSectionLen)
    (hlen64 : payload.length < 256 ^ 8)
    (hval : validateSectionHeader
      { SectionType := SectionMarkdown, SectionFlags := flags,
        PayloadLen := payload.length, Reserved := 0 } SectionMarkdown = .ok ())
    (hdec : decompressPayload deps.codec (flags &&& sectionFlagCompressionMask) flags payload
      limits.MaxMarkdownUncompressed = .ok bytes)
    (hgob : deps.gobDecodeMarkdown bytes = .ok md) :
    decodeMarkdownSection deps limits
      (serializeSectionHeader
        { SectionType := SectionMarkdown, SectionFlags := flags,
          PayloadLen := payload.length, Reserved := 0 } ++ (payload ++ rest)) =
      .ok (md, rest) := by
  have hparse := parse_serialize_sectionHeader
    { SectionType := SectionMarkdown, SectionFlags := flags,
      PayloadLen := payload.length, Reserved := 0 }
    (show SectionMarkdown < 256 ^ 2 by decide) hflags hlen64 (show (0 : Nat) < 256 ^ 4 by decide)
  have hr := readFull_prefix (serializeSectionHeader
    { SectionType := SectionMarkdown, SectionFlags := flags,
      PayloadLen := payload.length, Reserved := 0 }) (payload ++ rest) 16
    (serializeSectionHeader_length _)
  have hr2 := readFull_prefix payload rest payload.length rfl
  unfold decodeMarkdownSection
  simp only [hr, hparse, hval]
  rw [if_neg (by simpa using Nat.not_lt.mpr hfit)]
  simp only [hr2, sectionHeaderV1.compression]
  simp only [hdec, hgob]

/-- Decoding one encoded Media section with a non-empty payload. -/
theorem decodeMediaSection_encoded (deps : DecodeDeps) (limits : Limits)
    (flags : Nat) (payload rest bytes : List Nat) (media : MediaBundle)
    (hflags : flags < 256 ^ 2)
    (hfit : payload.length ≤ limits.MaxMediaSectionLen)
    (hlen64 : payload.length < 256 ^ 8)
    (hpos : 0 < payload.length)
    (hval : validateSectionHeader
      { SectionType := SectionMedia, SectionFlags := flags,
        PayloadLen := payload.length, Reserved := 0 } SectionMedia = .ok ())
    (hdec : decompressPayload deps.codec (flags &&& sectionFlagCompressionMask) flags payload
      limits.MaxMediaUncompressed = .ok bytes)
    (hgob : deps.gobDecodeMedia bytes = .ok media) :
    decodeMediaSection deps limits
      (serializeSectionHeader
        { SectionType := SectionMedia, SectionFlags := flags,
          PayloadLen := payload.length, Reserved := 0 } ++ (payload ++ rest)) =
      .ok (media, rest) := by
  have hparse := parse_serialize_sectionHeader
    { SectionType := SectionMedia, SectionFlags := flags,
      PayloadLen := payload.length, Reserved := 0 }
    (show SectionMedia < 256 ^ 2 by decide) hflags hlen64 (show (0 : Nat) < 256 ^ 4 by decide)
  have hr := readFull_prefix (serializeSectionHeader
    { SectionType := SectionMedia, SectionFlags := flags,
      PayloadLen := payload.length, Reserved := 0 }) (payload ++ rest) 16
    (serializeSectionHeader_length _)
  have hr2 := readFull_prefix payload rest payload.length rfl
  unfold decodeMediaSection
  simp only [hr, hparse, hval]
  rw [if_neg (by simpa using Nat.not_lt.mpr hfit), if_neg (by omega)]
  simp only [hr2, sectionHeaderV1.compression]
  simp only [hdec, hgob]

/-- Composing the three decode stages and the final validation on an
encoded stream. -/
theorem Decode_encoded (decDeps : DecodeDeps) (metadata : Option (List (String × Json)))
    (mbts : List Nat) (hfv f1 f2 : Nat) (p1 p2 : List Nat)
    (md : MarkdownBundle) (me : MediaBundle)
    (hmetaStage : ∀ rest, decodeFixedAndMetadata decDeps defaultLimits
      (serializeFixedHeader
        { Magic := Magic, Version := VersionV1, HeaderFlags := hfv,
          FixedHdrSize := fixedHeaderSizeV1, MetadataLength := mbts.length,
          Reserved0 := 0, Reserved1 := 0 } ++ (mbts ++ rest)) = .ok (metadata, rest))
    (hmdStage : ∀ rest, decodeMarkdownSection decDeps defaultLimits
      (serializeSectionHeader
        { SectionType := SectionMarkdown, SectionFlags := f1,
          PayloadLen := p1.length, Reserved := 0 } ++ (p1 ++ rest)) = .ok (md, rest))
    (hmeStage : decodeMediaSection decDeps defaultLimits
      (serializeSectionHeader
        { SectionType := SectionMedia, SectionFlags := f2,
          PayloadLen := p2.length, Reserved := 0 } ++ p2) = .ok (me, []))
    (hval : validateDocument decDeps.sha { Metadata := metadata, Markdown := md, Media := me }
      defaultLimits true = .ok ()) :
    Decode decDeps { limits := defaultLimits, verifyHashes := true }
      (serializeFixedHeader
        { Magic := Magic, Version := VersionV1, HeaderFlags := hfv,
          FixedHdrSize := fixedHeaderSizeV1, MetadataLength := mbts.length,
          Reserved0 := 0, Reserved1 := 0 } ++
       (mbts ++ (serializeSectionHeader
        { SectionType := SectionMarkdown, SectionFlags := f1,
          PayloadLen := p1.length, Reserved := 0 } ++
        (p1 ++ (serializeSectionHeader
          { SectionType := SectionMedia, SectionFlags := f2,
            PayloadLen := p2.length, Reserved := 0 } ++ p2))))) =
      .ok { Metadata := metadata, Markdown := md, Media := me } := by
  unfold Decode
  simp only [defaultLimits_withDefaults]
  simp only [hmetaStage, hmdStage, hmeStage, hval]

/-- C1 (amended): for every document accepted by the validator and every
choice of the five codecs for the two sections, encoding under default
options and decoding the produced bytes under default options yields
the same document with every zero `SHA256` replaced by the digest of the
item's data — provided each section fits the read-side ceilings Decode
enforces (for `CompNone` only the stored-section ceiling, carried by the
codec contract `ExtCodecOK`; for the other codecs also the uncompressed
ceiling on the gob bytes) and the external serializers (gob, json, the
compression libraries) satisfy their documented contracts at the
round-tripped values. -/
theorem c1_round_trip (encDeps : EncodeDeps) (decDeps : DecodeDeps) (cfg : writeConfig)
    (doc : Document)
    (hlim : cfg.limits = defaultLimits) (hv : cfg.verifyHashes = true)
    (ha : cfg.autoPopulate = true)
    (hcm : cfg.mdCompression ≤ 4) (hce : cfg.mediaCompression ≤ 4)
    (hsha : decDeps.sha = encDeps.sha)
    (hvalid : validateDocument encDeps.sha doc defaultLimits true = .ok ())
    (hmeta : doc.Metadata = none ∨ ∃ m mb, doc.Metadata = some m ∧
      encDeps.jsonMarshal m = .ok mb ∧ 0 < mb.length ∧
      mb.length ≤ defaultLimits.MaxMetadataLen ∧
      decDeps.jsonUnmarshal mb = .ok (some m))
    (hgmd : ∃ g, encDeps.gobEncodeMarkdown doc.Markdown = .ok g ∧
      decDeps.gobDecodeMarkdown g = .ok doc.Markdown ∧
      (cfg.mdCompression ≠ CompNone → g.length ≤ defaultLimits.MaxMarkdownUncompressed) ∧
      ExtCodecOK encDeps.codec decDeps.codec cfg.mdCompression g
        defaultLimits.MaxMarkdownSectionLen)
    (hgme : ∃ g, encDeps.gobEncodeMedia (populateSHA encDeps.sha doc).Media = .ok g ∧
      decDeps.gobDecodeMedia g = .ok (populateSHA encDeps.sha doc).Media ∧
      0 < g.length ∧
      (cfg.mediaCompression ≠ CompNone → g.length ≤ defaultLimits.MaxMediaUncompressed) ∧
      ExtCodecOK encDeps.codec decDeps.codec cfg.mediaCompression g
        defaultLimits.MaxMediaSectionLen) :
    ∃ out, (Encode encDeps cfg doc).2 = .ok out ∧
      Decode decDeps { limits := defaultLimits, verifyHashes := true } out =
        .ok (populateSHA encDeps.sha doc) := by
  rcases hgmd with ⟨gmd, hge1, hgd1, hgu1, hext1⟩
  rcases hgme with ⟨gme, hge2, hgd2, hgpos2, hgu2, hext2⟩
  have h64md : cfg.mdCompression ≠ CompNone → gmd.length < 256 ^ 8 :=
    fun h => lt_of_le_of_lt (hgu1 h) (by decide)
  have h64me : cfg.mediaCompression ≠ CompNone → gme.length < 256 ^ 8 :=
    fun h => lt_of_le_of_lt (hgu2 h) (by decide)
  obtain ⟨f1, p1, hcp1, hmask1, hf1, hsz1, hnone1, hge81, hbit1, hdec1⟩ :=
    compressPayload_spec encDeps.codec decDeps.codec cfg.mdCompression gmd
      defaultLimits.MaxMarkdownSectionLen defaultLimits.MaxMarkdownUncompressed hcm hgu1 h64md
      hext1
  obtain ⟨f2, p2, hcp2, hmask2, hf2, hsz2, hnone2, hge82, hbit2, hdec2⟩ :=
    compressPayload_spec encDeps.codec decDeps.codec cfg.mediaCompression gme
      defaultLimits.MaxMediaSectionLen defaultLimits.MaxMediaUncompressed hce hgu2 h64me hext2
  have hp641 : p1.length < 256 ^ 8 := lt_of_le_of_lt hsz1 (by decide)
  have hp642 : p2.length < 256 ^ 8 := lt_of_le_of_lt hsz2 (by decide)
  have hppos2 : 0 < p2.length := by
    by_cases hz : cfg.mediaCompression = CompNone
    · rw [hnone2 hz]; exact hgpos2
    · have := hge82 hz; omega
  have hvs1 := validateSectionHeader_ok SectionMarkdown f1 p1.length
    (by rw [hmask1]; exact hcm) (by rw [hmask1]; exact hbit1)
  have hvs2 := validateSectionHeader_ok SectionMedia f2 p2.length
    (by rw [hmask2]; exact hce) (by rw [hmask2]; exact hbit2)
  have hdec1' : decompressPayload decDeps.codec (f1 &&& sectionFlagCompressionMask) f1 p1
      defaultLimits.MaxMarkdownUncompressed = .ok gmd := by rw [hmask1]; exact hdec1
  have hdec2' : decompressPayload decDeps.codec (f2 &&& sectionFlagCompressionMask) f2 p2
      defaultLimits.MaxMediaUncompressed = .ok gme := by rw [hmask2]; exact hdec2
  have hmdStage : ∀ rest, decodeMarkdownSection decDeps defaultLimits
      (serializeSectionHeader
        { SectionType := SectionMarkdown, SectionFlags := f1,
          PayloadLen := p1.length, Reserved := 0 } ++ (p1 ++ rest)) = .ok (doc.Markdown, rest) :=
    fun rest => decodeMarkdownSection_encoded decDeps defaultLimits f1 p1 rest gmd
      doc.Markdown hf1 hsz1 hp641 hvs1 hdec1' hgd1
  have hmeStage : decodeMediaSection decDeps defaultLimits
      (serializeSectionHeader
        { SectionType := SectionMedia, SectionFlags := f2,
          PayloadLen := p2.length, Reserved := 0 } ++ p2) =
      .ok ((populateSHA encDeps.sha doc).Media, []) := by
    have h := decodeMediaSection_encoded decDeps defaultLimits f2 p2 [] gme
      (populateSHA encDeps.sha doc).Media hf2 hsz2 hp642 hppos2 hvs2 hdec2' hgd2
    simpa [List.append_nil] using h
  have hval2 : validateDocument encDeps.sha (populateSHA encDeps.sha doc) defaultLimits true =
      .ok () := validateDocument_populate_ok encDeps.sha doc defaultLimits hvalid
  have hfinal : validateDocument decDeps.sha
      { Metadata := doc.Metadata, Markdown := doc.Markdown,
        Media := (populateSHA encDeps.sha doc).Media } defaultLimits true = .ok () := by
    rw [hsha]
    exact hval2
  rcases hmeta with hm_eq | ⟨m, mb, hm_eq, hjm, hmbpos, hmblim, hju⟩
  · -- no metadata: header flags 0, empty metadata block
    have hmetaStage : ∀ rest, decodeFixedAndMetadata decDeps defaultLimits
        (serializeFixedHeader
          { Magic := Magic, Version := VersionV1, HeaderFlags := 0,
            FixedHdrSize := fixedHeaderSizeV1, MetadataLength := ([] : List Nat).length,
            Reserved0 := 0, Reserved1 := 0 } ++ (([] : List Nat) ++ rest)) =
        .ok (doc.Metadata, rest) := by
      intro rest
      rw [List.nil_append, hm_eq]
      exact decodeFixedAndMetadata_none decDeps defaultLimits 0 rest (by decide)
    refine ⟨_, ?_, Decode_encoded decDeps doc.Metadata [] 0 f1 f2 p1 p2 doc.Markdown
      (populateSHA encDeps.sha doc).Media hmetaStage hmdStage hmeStage hfinal⟩
    unfold Encode
    simp only [hlim, defaultLimits_withDefaults, ha, hv, if_true, ite_true, hval2,
      populateSHA_Metadata, populateSHA_Markdown, hm_eq, hge1, hge2, hcp1, hcp2]
    simp [List.append_assoc]
  · -- metadata present: flag 1, block mb
    have hmetaStage : ∀ rest, decodeFixedAndMetadata decDeps defaultLimits
        (serializeFixedHeader
          { Magic := Magic, Version := VersionV1,
            HeaderFlags := HeaderFlagMetadataJSON,
            FixedHdrSize := fixedHeaderSizeV1, MetadataLength := mb.length,
            Reserved0 := 0, Reserved1 := 0 } ++ (mb ++ rest)) = .ok (doc.Metadata, rest) := by
      intro rest
      rw [decodeFixedAndMetadata_some decDeps defaultLimits mb rest hmbpos hmblim
        (lt_of_le_of_lt hmblim (by decide)), hju, hm_eq]
    have hnotbig : ¬ (mb.length > defaultLimits.MaxMetadataLen) := Nat.not_lt.mpr hmblim
    refine ⟨_, ?_, Decode_encoded decDeps doc.Metadata mb HeaderFlagMetadataJSON f1 f2 p1 p2
      doc.Markdown (populateSHA encDeps.sha doc).Media hmetaStage hmdStage hmeStage hfinal⟩
    unfold Encode
    simp only [hlim, defaultLimits_withDefaults, ha, hv, if_true, ite_true, hval2,
      populateSHA_Metadata, populateSHA_Markdown, hm_eq, hjm, hnotbig, if_false, ite_false,
      hge1, hge2, hcp1, hcp2]
    simp [List.append_assoc]

/-- A small document with one markdown file and one media item whose
digest is unset, for the C1 witness. -/
def w1doc : Document where
  Metadata := none
  Markdown := { BundleVersion := 1, RootPath := "",
                Files := [{ Path := "a.md", Content := [35], MediaRefs := [],
                            Attributes := [] }] }
  Media := { BundleVersion := 1,
             Items := [{ ID := "m1", Path := "", MIMEType := "", Data := [2, 3],
                         SHA256 := zero32, Attributes := [] }] }

/-- Encode dependencies for the C1 witness (constant serializers whose
pointwise contract hypotheses hold at `w1doc`). -/
def w1encDeps : EncodeDeps where
  codec := codecId
  jsonMarshal := fun _ => .error .jsonErr
  gobEncodeMarkdown := fun _ => .ok [1]
  gobEncodeMedia := fun _ => .ok [2]
  sha := sha0

/-- Decode dependencies for the C1 witness. -/
def w1decDeps : DecodeDeps where
  codec := codecId
  jsonUnmarshal := fun _ => .error .jsonErr
  gobDecodeMarkdown := fun _ => .ok w1doc.Markdown
  gobDecodeMedia := fun _ => .ok (populateSHA sha0 w1doc).Media
  sha := sha0

/-- Witness for the amended C1, at `CompZSTD` for both sections. -/
theorem c1_witness :
    ∃ out, (Encode w1encDeps defaultWriteConfig w1doc).2 = .ok out ∧
      Decode w1decDeps { limits := defaultLimits, verifyHashes := true } out =
        .ok (populateSHA w1encDeps.sha w1doc) :=
  c1_round_trip w1encDeps w1decDeps defaultWriteConfig w1doc rfl rfl rfl (by decide)
    (by decide) rfl (by decide) (Or.inl rfl)
    ⟨[1], rfl, rfl, by decide, by
      unfold ExtCodecOK
      rw [if_neg (by decide)]
      exact ⟨codecId.zstdCompress, codecId.zstdDecompress, [1], rfl, rfl, rfl, rfl, by decide⟩⟩
    ⟨[2], rfl, rfl, by decide, by decide, by
      unfold ExtCodecOK
      rw [if_neg (by decide)]
      exact ⟨codecId.zstdCompress, codecId.zstdDecompress, [2], rfl, rfl, rfl, rfl, by decide⟩⟩

/-- ASCII byte lists are valid UTF-8. -/
theorem utf8ValidAux_ascii (fuel : Nat) :
    ∀ (l : List Nat), l.length < fuel → (∀ b ∈ l, b < 128) → utf8ValidAux fuel l = true := by
  induction fuel with
  | zero => intro l h _; omega
  | succ fuel ih =>
      intro l hl hb
      cases l with
      | nil => rfl
      | cons b rest =>
          have hbb : b < 128 := hb b (List.mem_cons_self _ _)
          have hstep : utf8ValidAux (fuel + 1) (b :: rest) = utf8ValidAux fuel rest := by
            simp only [utf8ValidAux]
            rw [if_pos (show b < 0x80 from by omega)]
          rw [hstep]
          exact ih rest (by simpa using hl) (fun x hx => hb x (List.mem_cons_of_mem _ hx))

/-- Exactly `MaxSingleMarkdownFileSize` bytes of ASCII `#`: accepted by
the validator, yet any self-describing serialization of the bundle is
strictly longer than the markdown uncompressed ceiling. -/
def cxContent : List Nat := List.replicate 268435456 35

/-- The single file of the oversized counterexample document. -/
def cxFile : MarkdownFile where
  Path := "a.md"
  Content := cxContent
  MediaRefs := []
  Attributes := []

/-- A validator-accepted document whose markdown serialization exceeds
`MaxMarkdownUncompressed`. -/
def cxDoc : Document where
  Metadata := none
  Markdown := { BundleVersion := 1, RootPath := "", Files := [cxFile] }
  Media := { BundleVersion := 1, Items := [] }

/-- A codec whose Zstandard compressor emits the single byte `[7]`
(the compressed bytes are never decompressed below: the declared-length
guard fires first, so their value is irrelevant). -/
def codecZ : CodecImpl where
  zipCompress := fun _ => .error .codecErr
  zipDecompress := fun _ _ => .error .codecErr
  zstdCompress := fun _ => .ok [7]
  zstdDecompress := fun _ _ => .error .codecErr
  lz4Compress := fun _ => .error .codecErr
  lz4Decompress := fun _ _ => .error .codecErr
  brotliCompress := fun _ => .error .codecErr
  brotliDecompress := fun _ _ => .error .codecErr

/-- Encode dependencies of the counterexample.  The gob model emits one
framing byte followed by the file content — every self-describing
serializer (gob included) produces at least one byte beyond the raw
content it embeds. -/
def cxEncDeps : EncodeDeps where
  codec := codecZ
  jsonMarshal := fun _ => .error .jsonErr
  gobEncodeMarkdown := fun b => .ok (0 :: (b.Files.headD cxFile).Content)
  gobEncodeMedia := fun _ => .ok [9]
  sha := sha0

/-- Decode dependencies of the counterexample (never consulted beyond
the codec: decoding fails at the bomb guard). -/
def cxDecDeps : DecodeDeps where
  codec := codecZ
  jsonUnmarshal := fun _ => .error .jsonErr
  gobDecodeMarkdown := fun _ => .error .gobErr
  gobDecodeMedia := fun _ => .error .gobErr
  sha := sha0

/-- The byte stream Encode produces for `cxDoc`. -/
def cxOut : List Nat :=
  serializeFixedHeader
    { Magic := Magic, Version := VersionV1, HeaderFlags := 0,
      FixedHdrSize := fixedHeaderSizeV1, MetadataLength := 0,
      Reserved0 := 0, Reserved1 := 0 } ++
  (serializeSectionHeader
    { SectionType := SectionMarkdown,
      SectionFlags := CompZSTD ||| sectionFlagHasUncompressedLen,
      PayloadLen := 9, Reserved := 0 } ++
  ((toLE 8 268435457 ++ [7]) ++
  (serializeSectionHeader
    { SectionType := SectionMedia,
      SectionFlags := CompZSTD ||| sectionFlagHasUncompressedLen,
      PayloadLen := 9, Reserved := 0 } ++
  (toLE 8 1 ++ [7]))))

theorem cx_valid : validateDocument sha0 cxDoc defaultLimits true = .ok () := by
  have hutf : utf8Valid cxContent = true := by
    unfold utf8Valid
    refine utf8ValidAux_ascii _ cxContent (by omega) ?_
    intro b hb
    have := List.eq_of_mem_replicate hb
    omega
  have hclen : cxContent.length = 268435456 := by
    unfold cxContent
    exact List.length_replicate _ _
  unfold validateDocument
  rw [if_neg (by decide), if_neg (by decide), if_neg (by decide), if_neg (by decide)]
  have hvf : validateFiles defaultLimits [cxFile] [] 0 = .ok () := by
    unfold validateFiles
    rw [if_neg (by decide), if_neg (by decide),
      if_neg (by rw [show cxFile.Content = cxContent from rfl, hutf]; simp),
      if_neg (by rw [show cxFile.Content = cxContent from rfl, hclen]; decide)]
    rfl
  simp only [show cxDoc.Markdown.Files = [cxFile] from rfl, hvf]
  rw [if_neg (by decide), if_neg (by decide)]
  rfl

theorem Encode_ok_none (deps : EncodeDeps) (cfg : writeConfig) (doc : Document)
    (g1 g2 p1 p2 : List Nat) (f1 f2 : Nat)
    (hval : validateDocument deps.sha
      (if cfg.autoPopulate then populateSHA deps.sha doc else doc)
      cfg.limits.withDefaults cfg.verifyHashes = .ok ())
    (hmeta : (if cfg.autoPopulate then populateSHA deps.sha doc else doc).Metadata = none)
    (hg1 : deps.gobEncodeMarkdown
      (if cfg.autoPopulate then populateSHA deps.sha doc else doc).Markdown = .ok g1)
    (hg2 : deps.gobEncodeMedia
      (if cfg.autoPopulate then populateSHA deps.sha doc else doc).Media = .ok g2)
    (hc1 : compressPayload deps.codec cfg.mdCompression g1 = .ok (f1, p1))
    (hc2 : compressPayload deps.codec cfg.mediaCompression g2 = .ok (f2, p2)) :
    (Encode deps cfg doc).2 =
      .ok (serializeFixedHeader
            { Magic := Magic, Version := VersionV1, HeaderFlags := 0,
              FixedHdrSize := fixedHeaderSizeV1, MetadataLength := 0,
              Reserved0 := 0, Reserved1 := 0 } ++
          (serializeSectionHeader
            { SectionType := SectionMarkdown, SectionFlags := f1,
              PayloadLen := p1.length, Reserved := 0 } ++
          (p1 ++
          (serializeSectionHeader
            { SectionType := SectionMedia, SectionFlags := f2,
              PayloadLen := p2.length, Reserved := 0 } ++ p2)))) := by
  unfold Encode
  simp only [hval, hmeta, hg1, hg2, hc1, hc2]
  simp [List.append_assoc]

theorem cx_encode : (Encode cxEncDeps defaultWriteConfig cxDoc).2 = .ok cxOut := by
  have hpop : (if defaultWriteConfig.autoPopulate then populateSHA cxEncDeps.sha cxDoc
      else cxDoc) = cxDoc := rfl
  have hval' : validateDocument cxEncDeps.sha
      (if defaultWriteConfig.autoPopulate then populateSHA cxEncDeps.sha cxDoc else cxDoc)
      defaultWriteConfig.limits.withDefaults defaultWriteConfig.verifyHashes = .ok () := by
    rw [hpop]
    show validateDocument sha0 cxDoc defaultLimits.withDefaults true = .ok ()
    rw [defaultLimits_withDefaults]
    exact cx_valid
  have hclen : cxContent.length = 268435456 := by
    unfold cxContent
    exact List.length_replicate _ _
  have hglen : (0 :: cxContent).length = 268435457 := by
    rw [List.length_cons, hclen]
  have h := Encode_ok_none cxEncDeps defaultWriteConfig cxDoc (0 :: cxContent) [9]
    (toLE 8 (0 :: cxContent).length ++ [7]) (toLE 8 1 ++ [7])
    (CompZSTD ||| sectionFlagHasUncompressedLen) (CompZSTD ||| sectionFlagHasUncompressedLen)
    hval' rfl rfl rfl rfl rfl
  rw [h]
  simp only [hglen]
  rfl

theorem cx_decode :
    Decode cxDecDeps { limits := defaultLimits, verifyHashes := true } cxOut =
      .error .limitExceeded := by
  have hmeta := decodeFixedAndMetadata_none cxDecDeps defaultLimits 0
    (serializeSectionHeader
      { SectionType := SectionMarkdown,
        SectionFlags := CompZSTD ||| sectionFlagHasUncompressedLen,
        PayloadLen := 9, Reserved := 0 } ++
     ((toLE 8 268435457 ++ [7]) ++
     (serializeSectionHeader
       { SectionType := SectionMedia,
         SectionFlags := CompZSTD ||| sectionFlagHasUncompressedLen,
         PayloadLen := 9, Reserved := 0 } ++
     (toLE 8 1 ++ [7])))) (by decide)
  have hparse := parse_serialize_sectionHeader
    { SectionType := SectionMarkdown,
      SectionFlags := CompZSTD ||| sectionFlagHasUncompressedLen,
      PayloadLen := 9, Reserved := 0 }
    (by decide) (by decide) (by decide) (by decide)
  have hr := readFull_prefix (serializeSectionHeader
    { SectionType := SectionMarkdown,
      SectionFlags := CompZSTD ||| sectionFlagHasUncompressedLen,
      PayloadLen := 9, Reserved := 0 })
    ((toLE 8 268435457 ++ [7]) ++
     (serializeSectionHeader
       { SectionType := SectionMedia,
         SectionFlags := CompZSTD ||| sectionFlagHasUncompressedLen,
         PayloadLen := 9, Reserved := 0 } ++
     (toLE 8 1 ++ [7]))) 16 (serializeSectionHeader_length _)
  have hr2 := readFull_prefix (toLE 8 268435457 ++ [7])
    (serializeSectionHeader
      { SectionType := SectionMedia,
        SectionFlags := CompZSTD ||| sectionFlagHasUncompressedLen,
        PayloadLen := 9, Reserved := 0 } ++
     (toLE 8 1 ++ [7])) 9 (by simp [toLE_length])
  have hval := validateSectionHeader_ok SectionMarkdown
    (CompZSTD ||| sectionFlagHasUncompressedLen) 9 (by decide) (by decide)
  have hdecomp : decompressPayload cxDecDeps.codec
      ((CompZSTD ||| sectionFlagHasUncompressedLen) &&& sectionFlagCompressionMask)
      (CompZSTD ||| sectionFlagHasUncompressedLen) (toLE 8 268435457 ++ [7])
      defaultLimits.MaxMarkdownUncompressed = .error .limitExceeded := by
    unfold decompressPayload
    rw [if_neg (by decide), if_neg (by decide), if_neg (by simp [toLE_length])]
    rw [List.take_left' (toLE_length 8 268435457), fromLE_toLE 8 268435457 (by decide)]
    rw [if_pos (by decide)]
  have hmd : decodeMarkdownSection cxDecDeps defaultLimits
      (serializeSectionHeader
        { SectionType := SectionMarkdown,
          SectionFlags := CompZSTD ||| sectionFlagHasUncompressedLen,
          PayloadLen := 9, Reserved := 0 } ++
       ((toLE 8 268435457 ++ [7]) ++
       (serializeSectionHeader
         { SectionType := SectionMedia,
           SectionFlags := CompZSTD ||| sectionFlagHasUncompressedLen,
           PayloadLen := 9, Reserved := 0 } ++
       (toLE 8 1 ++ [7])))) = .error .limitExceeded := by
    unfold decodeMarkdownSection
    simp only [hr, hparse, hval]
    rw [if_neg (by decide)]
    simp only [hr2, sectionHeaderV1.compression]
    simp only [hdecomp]
  unfold Decode
  simp only [defaultLimits_withDefaults]
  unfold cxOut
  simp only [hmeta, hmd]

/-- Counterexample to C1 as stated: `cxDoc` is accepted by the validator
under defaults, yet Encode-then-Decode under default options fails with
`LimitExceeded` instead of returning the document (the markdown
serialization is one byte longer than `MaxMarkdownUncompressed`, and the
declared-length bomb guard fires during decode; Encode enforces no
uncompressed ceiling). -/
theorem c1_counterexample :
    validateDocument cxEncDeps.sha cxDoc defaultLimits true = .ok () ∧
    (Encode cxEncDeps defaultWriteConfig cxDoc).2 = .ok cxOut ∧
    Decode cxDecDeps { limits := defaultLimits, verifyHashes := true } cxOut =
      .error .limitExceeded :=
  ⟨cx_valid, cx_encode, cx_decode⟩

end Mdocx
